import Mathlib

/-!
Shallow embedding of the trust-boundary subsystem of `powerbi-expert-app`:
the schema sanitizer (`src/llm/data_boundary.py`), the provider router
(`src/llm/router.py`), the Ollama provider (`src/llm/ollama_provider.py`)
and the tamper-evident audit logger (`src/security/audit_logger.py`).

Python strings are modelled by `String`, with slicing and stripping defined
over the underlying character list (Python slices code points, so `List Char`
operations are the faithful model).  Regular-expression scans performed by
the `re` library over the fixed `DATA_LEAK_PATTERNS` set are modelled by an
explicit parameter `leak : String -> Bool` ("some pattern matches the text,
case-insensitively"); likewise SHA-256 and HMAC-SHA256 from `hashlib`/`hmac`
are modelled by explicit function parameters, since those algorithms live in
the Python standard library, not in this repository.  Theorems that depend on
hash or signature distinctness take that distinctness as a hypothesis on the
concrete strings involved (collision-freeness at the point of use).
-/

set_option autoImplicit false

deriving instance DecidableEq for Except

namespace PowerBI

/-! ## String primitives (Python slicing / strip semantics on code points) -/

/-- Python `text[:n]` on code points. -/
def strTake (s : String) (n : Nat) : String :=
  String.mk (s.data.take n)

/-- Length in code points, Python `len`. -/
def strLen (s : String) : Nat :=
  s.data.length

/-- Characters treated as whitespace by Python `str.strip()`. -/
def pyWs (c : Char) : Bool :=
  c.isWhitespace

/-- Strip whitespace from the front and the back of a character list. -/
def trimList (l : List Char) : List Char :=
  ((l.dropWhile pyWs).reverse.dropWhile pyWs).reverse

/-- Python `str.strip()`. -/
def strStrip (s : String) : String :=
  String.mk (trimList s.data)

/-- Python `"\n".join(lines)`. -/
def joinLines (sep : String) : List String → String
  | [] => ""
  | [a] => a
  | a :: b :: rest => a ++ sep ++ joinLines sep (b :: rest)

/-- Concatenation of the per-element line lists, Python repeated `lines.append`. -/
def flatList {α β : Type} (f : α → List β) : List α → List β
  | [] => []
  | a :: l => f a ++ flatList f l

/-! ## Schema data model (`data_boundary.py`, dataclasses) -/

/-- Column metadata, `ColumnInfo`. -/
structure ColumnInfo where
  name : String
  data_type : String
  table_name : String
  description : Option String := none
  is_key : Bool := false
  is_nullable : Bool := true
  deriving Repr, DecidableEq

/-- Table metadata, `TableInfo`. -/
structure TableInfo where
  name : String
  columns : List ColumnInfo := []
  description : Option String := none
  is_hidden : Bool := false
  deriving Repr, DecidableEq

/-- Measure metadata, `MeasureInfo`. -/
structure MeasureInfo where
  name : String
  expression : String
  table_name : String
  description : Option String := none
  format_string : Option String := none
  deriving Repr, DecidableEq

/-- Relationship metadata, `RelationshipInfo`. -/
structure RelationshipInfo where
  from_table : String
  from_column : String
  to_table : String
  to_column : String
  is_active : Bool := true
  cardinality : String := "many-to-one"
  deriving Repr, DecidableEq

/-- Complete schema information, `SchemaInfo`. -/
structure SchemaInfo where
  tables : List TableInfo := []
  measures : List MeasureInfo := []
  relationships : List RelationshipInfo := []
  model_name : Option String := none
  model_description : Option String := none
  deriving Repr, DecidableEq

/-- Python truthiness of an optional string: `None` and `""` are falsy. -/
def optTruthy : Option String → Bool
  | none => false
  | some s => s ≠ ""

/-- `SchemaInfo._format_table_name`: quote when the name contains a space or
bracket characters. -/
def format_table_name (name : String) : String :=
  if name.data.any (fun c => c = ' ' ∨ c ∈ ['[', ']', '(', ')', Char.ofNat 123, Char.ofNat 125]) then
    "'" ++ name ++ "'"
  else
    name

/-- Lines contributed by one column inside `to_prompt_string`. -/
def columnLine (col : ColumnInfo) : String :=
  "    - " ++ col.name ++ " (" ++ col.data_type ++ ")"
    ++ (if col.is_key then " [KEY]" else "")
    ++ (match col.description with
        | some d => if d ≠ "" then " -- " ++ d else ""
        | none => "")

/-- Lines contributed by one table inside `to_prompt_string`; a hidden table
is skipped (`continue`). -/
def tableLines (table : TableInfo) : List String :=
  if table.is_hidden then []
  else
    ["\n" ++ format_table_name table.name]
      ++ (match table.description with
          | some d => if d ≠ "" then ["  Description: " ++ d] else []
          | none => [])
      ++ ["  Columns:"]
      ++ table.columns.map columnLine

/-- Lines contributed by one measure inside `to_prompt_string`. -/
def measureLines (m : MeasureInfo) : List String :=
  ["  - [" ++ m.table_name ++ "].[" ++ m.name ++ "]",
   "    Expression: " ++ m.expression]
    ++ (match m.description with
        | some d => if d ≠ "" then ["    Description: " ++ d] else []
        | none => [])

/-- Line contributed by one relationship inside `to_prompt_string`. -/
def relationshipLine (rel : RelationshipInfo) : String :=
  "  - " ++ rel.from_table ++ "[" ++ rel.from_column ++ "] -> "
    ++ rel.to_table ++ "[" ++ rel.to_column ++ "] (" ++ rel.cardinality ++ ")"
    ++ (if rel.is_active then "" else " (inactive)")

/-- `SchemaInfo.to_prompt_string`: the canonical prompt serialization sent to
the LLM. -/
def to_prompt_string (s : SchemaInfo) : String :=
  joinLines "\n"
    (["TABLES:"]
      ++ flatList tableLines s.tables
      ++ (if s.measures ≠ [] then "\nMEASURES:" :: flatList measureLines s.measures else [])
      ++ (if s.relationships ≠ [] then "\nRELATIONSHIPS:" :: s.relationships.map relationshipLine else []))

/-! ## Schema sanitizer (`DataBoundary`) -/

/-- Configuration flags of the `DataBoundary` class. -/
structure DataBoundary where
  allow_descriptions : Bool := true
  allow_measures : Bool := true
  allow_relationships : Bool := true
  strict_mode : Bool := true
  deriving Repr, DecidableEq

/-- `MAX_TABLE_DESCRIPTION_LENGTH`. -/
def MAX_TABLE_DESCRIPTION_LENGTH : Nat := 500

/-- `MAX_COLUMN_DESCRIPTION_LENGTH`. -/
def MAX_COLUMN_DESCRIPTION_LENGTH : Nat := 200

/-- `MAX_MEASURE_EXPRESSION_LENGTH`. -/
def MAX_MEASURE_EXPRESSION_LENGTH : Nat := 2000

/-- Characters removed by `_sanitize_identifier` (the regex class
containing angle brackets, curly braces, pipe, backslash, caret, backtick). -/
def badIdentChars : List Char :=
  ['<', '>', Char.ofNat 123, Char.ofNat 125, '|', '\\', '^', Char.ofNat 96]

/-- `DataBoundary._sanitize_identifier`: remove injection characters, then
strip surrounding whitespace. -/
def sanitize_identifier (name : String) : String :=
  strStrip (String.mk (name.data.filter (fun c => ¬ c ∈ badIdentChars)))

/-- Truncation step of `_sanitize_text`: `text[:max_length] + "..."` when
over-long, otherwise the text unchanged. -/
def truncateText (text : String) (maxLen : Nat) : String :=
  if strLen text > maxLen then strTake text maxLen ++ "..." else text

/-- Violation message recorded by `_sanitize_text` on a leak-pattern hit. -/
def textViolationMsg (text : String) : String :=
  "Description contains potential data: " ++ strTake text 50 ++ "..."

/-- `DataBoundary._sanitize_text`.  The scan of the text against
`DATA_LEAK_PATTERNS` is the parameter `leak`; a hit records a violation and,
in strict mode, returns the fixed placeholder immediately (before
truncation).  An empty or absent text yields `None` with no violation. -/
def sanitize_text (leak : String → Bool) (strict : Bool) (text : String) (maxLen : Nat) :
    Option String × List String :=
  if text = "" then (none, [])
  else if leak text then
    if strict then (some "[REDACTED]", [textViolationMsg text])
    else (some (truncateText text maxLen), [textViolationMsg text])
  else (some (truncateText text maxLen), [])

/-- Call-site guard `self._sanitize_text(d, maxLen) if self.allow_descriptions
and d else None` used for table, column and measure descriptions. -/
def descField (leak : String → Bool) (db : DataBoundary) (d : Option String) (maxLen : Nat) :
    Option String × List String :=
  match d with
  | none => (none, [])
  | some t =>
      if db.allow_descriptions ∧ t ≠ "" then sanitize_text leak db.strict_mode t maxLen
      else (none, [])

/-- `DataBoundary._sanitize_table`: sanitize each column (the sanitized
column's `table_name` is set to the raw table name), then rebuild the table
with a sanitized name.  Violations are recorded column-by-column, then for
the table description. -/
def sanitize_table (leak : String → Bool) (db : DataBoundary) (table : TableInfo) :
    TableInfo × List String :=
  let cols := table.columns.map (fun col =>
    let d := descField leak db col.description MAX_COLUMN_DESCRIPTION_LENGTH
    (({ name := sanitize_identifier col.name
        data_type := col.data_type
        table_name := table.name
        description := d.1
        is_key := col.is_key
        is_nullable := col.is_nullable } : ColumnInfo), d.2))
  let td := descField leak db table.description MAX_TABLE_DESCRIPTION_LENGTH
  (({ name := sanitize_identifier table.name
      columns := cols.map Prod.fst
      description := td.1
      is_hidden := table.is_hidden } : TableInfo),
   flatList Prod.snd cols ++ td.2)

/-- Violation message for an over-long measure expression. -/
def measureLenMsg (name : String) : String :=
  "Measure " ++ name ++ " expression too long, truncating"

/-- Violation message for a measure expression matching a leak pattern. -/
def measureLeakMsg (name : String) : String :=
  "Measure " ++ name ++ " contains potential data leak pattern"

/-- `DataBoundary._sanitize_measure`: truncate an over-long expression
(recording a violation), scan the (possibly truncated) expression against the
leak patterns, and in strict mode drop the measure entirely on a hit. -/
def sanitize_measure (leak : String → Bool) (db : DataBoundary) (m : MeasureInfo) :
    Option MeasureInfo × List String :=
  let lenViol := strLen m.expression > MAX_MEASURE_EXPRESSION_LENGTH
  let e := if lenViol then strTake m.expression MAX_MEASURE_EXPRESSION_LENGTH ++ "..."
           else m.expression
  let v1 := if lenViol then [measureLenMsg m.name] else []
  if leak e then
    if db.strict_mode then (none, v1 ++ [measureLeakMsg m.name])
    else
      let d := descField leak db m.description MAX_COLUMN_DESCRIPTION_LENGTH
      (some { name := sanitize_identifier m.name
              expression := e
              table_name := m.table_name
              description := d.1
              format_string := m.format_string },
       v1 ++ [measureLeakMsg m.name] ++ d.2)
  else
    let d := descField leak db m.description MAX_COLUMN_DESCRIPTION_LENGTH
    (some { name := sanitize_identifier m.name
            expression := e
            table_name := m.table_name
            description := d.1
            format_string := m.format_string },
     v1 ++ d.2)

/-- `DataBoundary._validate_final`: size ceiling (50 KB) on the serialized
prompt and a defense-in-depth leak scan of the whole prompt text. -/
def validate_final (leak : String → Bool) (s : SchemaInfo) : List String :=
  let p := to_prompt_string s
  (if strLen p > 50000 then
      ["Schema too large (" ++ toString (strLen p) ++ " chars), may need filtering"]
   else [])
  ++ (if leak p then ["Final schema contains data pattern"] else [])

/-- The model-description branch of `validate_schema` (guard
`if schema.model_description` then `_sanitize_text`). -/
def sanitize_model_desc (leak : String → Bool) (db : DataBoundary) (od : Option String) :
    Option String × List String :=
  match od with
  | none => (none, [])
  | some t =>
      if t ≠ "" then sanitize_text leak db.strict_mode t MAX_TABLE_DESCRIPTION_LENGTH
      else (none, [])

/-- The sanitized schema assembled by `validate_schema` (every sanitized
table is appended — a dataclass instance is always truthy — and measures
dropped by strict mode are filtered out). -/
def sanitized_of (leak : String → Bool) (db : DataBoundary) (schema : SchemaInfo) :
    SchemaInfo :=
  { tables := (schema.tables.map (sanitize_table leak db)).map Prod.fst
    measures :=
      if db.allow_measures then
        (schema.measures.map (sanitize_measure leak db)).filterMap Prod.fst
      else []
    relationships := if db.allow_relationships then schema.relationships else []
    model_name := schema.model_name
    model_description := (sanitize_model_desc leak db schema.model_description).1 }

/-- The violation list (`self._violations`) accumulated by one
`validate_schema` call, in recording order: model description, then the
tables, then the measures, then the final validation pass. -/
def violations_of (leak : String → Bool) (db : DataBoundary) (schema : SchemaInfo) :
    List String :=
  (sanitize_model_desc leak db schema.model_description).2
    ++ flatList Prod.snd (schema.tables.map (sanitize_table leak db))
    ++ flatList Prod.snd
        (if db.allow_measures then schema.measures.map (sanitize_measure leak db) else [])
    ++ validate_final leak (sanitized_of leak db schema)

/-- The pure core of `DataBoundary.validate_schema`: the sanitized schema
together with the accumulated violation list. -/
def validate_schema_pair (leak : String → Bool) (db : DataBoundary) (schema : SchemaInfo) :
    SchemaInfo × List String :=
  (sanitized_of leak db schema, violations_of leak db schema)

/-- `DataBoundary.validate_schema`: raise `DataBoundaryViolation` carrying the
violation list when any violation was recorded in strict mode, otherwise
return the sanitized schema. -/
def validate_schema (leak : String → Bool) (db : DataBoundary) (schema : SchemaInfo) :
    Except (List String) SchemaInfo :=
  let r := validate_schema_pair leak db schema
  if r.2 ≠ [] ∧ db.strict_mode then .error r.2 else .ok r.1

/-- `SchemaInfo.get_hash`: first 16 hex characters of the SHA-256 of the
prompt serialization; the SHA-256 itself is the parameter `sha`. -/
def get_hash (sha : String → String) (s : SchemaInfo) : String :=
  strTake (sha (to_prompt_string s)) 16

/-! ## Provider contract (`base_provider.py`) -/

/-- `LLMProviderType`. -/
inductive LLMProviderType where
  | ollama
  | azure_foundry
  | azure_private
  deriving Repr, DecidableEq

/-- `LLMStatus`. -/
inductive LLMStatus where
  | ready
  | initializing
  | error
  | offline
  deriving Repr, DecidableEq

/-- `LLMConfig`.  `retry_delay` is a Python float whose value is only ever
copied into `asyncio.sleep`; it is carried here as an abstract `Nat` token
since no arithmetic is performed on it. -/
structure LLMConfig where
  provider_type : LLMProviderType
  endpoint : String
  model : String
  max_tokens : Nat := 4096
  timeout : Nat := 120
  max_retries : Nat := 3
  retry_delay : Nat := 1
  validate_endpoint : Bool := true
  allowed_endpoints : List String := ["127.0.0.1", "localhost"]
  deriving Repr, DecidableEq

/-- `LLMProviderError` (and its subclasses): message, provider, optional
request id, recoverable flag, plus a tag distinguishing the subclass raised
(`LLMConnectionError`, `LLMTimeoutError`, or the base class). -/
inductive LLMErrorKind where
  | provider_error
  | connection_error
  | timeout_error
  deriving Repr, DecidableEq

/-- The data carried by a raised `LLMProviderError`. -/
structure LLMProviderErr where
  kind : LLMErrorKind
  message : String
  provider : LLMProviderType
  request_id : Option String := none
  recoverable : Bool := true
  deriving Repr, DecidableEq

/-- `LLMResponse` (timing is abstracted: `latency_ms` is not modelled since
it reads the wall clock). -/
structure LLMResponse where
  content : String
  model : String
  provider : LLMProviderType
  prompt_tokens : Option Nat := none
  completion_tokens : Option Nat := none
  total_tokens : Option Nat := none
  request_id : Option String := none
  deriving Repr, DecidableEq

/-- `LLMResponse.success`: nonempty content after stripping. -/
def responseSuccess (r : LLMResponse) : Bool :=
  strStrip r.content ≠ ""

/-! ## URL host parsing (model of `urllib.parse.urlparse(...).hostname`) -/

/-- Suffix of `l` after the first occurrence of `pat`, if any. -/
def afterSub (pat : List Char) : List Char → Option (List Char)
  | [] => none
  | c :: rest =>
      if pat.isPrefixOf (c :: rest) then some ((c :: rest).drop pat.length)
      else afterSub pat rest

/-- Hostname of a URL as computed by `urlparse(...).hostname`: the netloc
after `"://"` up to the first slash, with an IPv6 bracket form unwrapped and
any port removed, lowercased. -/
def hostOf (endpoint : String) : String :=
  let s := endpoint.data
  let rest := (afterSub "://".data s).getD s
  let netloc := rest.takeWhile (fun c => c ≠ '/')
  let h :=
    match netloc with
    | '[' :: t => t.takeWhile (fun c => c ≠ ']')
    | _ => netloc.takeWhile (fun c => c ≠ ':')
  String.mk (h.map Char.toLower)

/-- `BaseLLMProvider._validate_endpoint`: the configured host must equal an
allow-list entry or end with `"." + entry`, unless validation is disabled. -/
def base_validate_endpoint (config : LLMConfig) : Bool :=
  if ¬ config.validate_endpoint then true
  else
    let host := hostOf config.endpoint
    config.allowed_endpoints.any (fun a =>
      host = a ∨ ("." ++ a).data.isSuffixOf host.data)

/-! ## Ollama provider (`ollama_provider.py`) -/

/-- `OllamaProvider._validate_localhost_only`: the endpoint host must be in
the fixed set of localhost names (the configured allow-list is not
consulted). -/
def validate_localhost_only (config : LLMConfig) : Bool :=
  (hostOf config.endpoint) ∈ (["127.0.0.1", "localhost", "::1"] : List String)

/-- Observable outcome of `OllamaProvider.initialize`: the returned boolean,
the resulting provider status, and whether any network call (the health
check or the model check, both HTTP requests) was attempted. -/
structure InitOutcome where
  ok : Bool
  status : LLMStatus
  network_attempted : Bool
  deriving Repr, DecidableEq

/-- `OllamaProvider.initialize`, with the results of the two network probes
(`health_check` and `_check_model_available`) supplied as oracles.  The
localhost check happens before the HTTP client is even created. -/
def ollama_init (config : LLMConfig) (healthOk modelOk : Bool) : InitOutcome :=
  if ¬ validate_localhost_only config then
    { ok := false, status := .error, network_attempted := false }
  else if ¬ healthOk then
    { ok := false, status := .error, network_attempted := true }
  else if ¬ modelOk then
    { ok := false, status := .error, network_attempted := true }
  else
    { ok := true, status := .ready, network_attempted := true }

/-- Outcome of one HTTP attempt inside `OllamaProvider.generate`, as seen by
the `try`/`except` structure of the retry loop. -/
inductive AttemptOutcome where
  | timeout
  | connect_error (msg : String)
  | http_error (code : Nat)
  | ok (response_text : String) (prompt_eval_count eval_count : Option Nat)
  deriving Repr, DecidableEq

/-- Trace of a `generate` run: the result (or raised error), the number of
HTTP attempts made, and the sleeps performed between attempts (each sleep
carries the configured `retry_delay`). -/
structure GenTrace where
  result : Except LLMProviderErr LLMResponse
  attempts : Nat
  sleeps : List Nat
  deriving Repr, DecidableEq

/-- Token accounting of the Ollama response:
`((prompt_eval_count or 0) + (eval_count or 0)) or None`. -/
def totalTokens (p c : Option Nat) : Option Nat :=
  let t := p.getD 0 + c.getD 0
  if t = 0 then none else some t

/-- The retry loop of `OllamaProvider.generate` (`for attempt in
range(max_retries)`), recursing on the remaining attempt budget.  `attempt`
indexes the oracle; a timeout sleeps `retry_delay` and continues unless this
was the last attempt; a connect error raises `LLMConnectionError`
immediately with `recoverable=True`; a non-200 status raises
`LLMProviderError` (not caught by the loop); exhaustion raises
`LLMTimeoutError` naming `max_retries`. -/
def genLoop (config : LLMConfig) (pt : String → String) (rid : String)
    (oracle : Nat → AttemptOutcome) : Nat → Nat → GenTrace
  | _, 0 =>
      { result := .error
          { kind := .timeout_error
            message := "Ollama request timed out after " ++ toString config.max_retries
              ++ " attempts"
            provider := .ollama
            request_id := some rid }
        attempts := 0
        sleeps := [] }
  | attempt, remaining + 1 =>
      match oracle attempt with
      | .ok text p c =>
          { result := .ok
              { content := pt text
                model := config.model
                provider := .ollama
                prompt_tokens := p
                completion_tokens := c
                total_tokens := totalTokens p c
                request_id := some rid }
            attempts := 1
            sleeps := [] }
      | .http_error code =>
          { result := .error
              { kind := .provider_error
                message := "Ollama returned status " ++ toString code
                provider := .ollama
                request_id := some rid }
            attempts := 1
            sleeps := [] }
      | .connect_error msg =>
          { result := .error
              { kind := .connection_error
                message := "Cannot connect to Ollama: " ++ msg
                provider := .ollama
                request_id := some rid
                recoverable := true }
            attempts := 1
            sleeps := [] }
      | .timeout =>
          let rest := genLoop config pt rid oracle (attempt + 1) remaining
          { result := rest.result
            attempts := rest.attempts + 1
            sleeps := if remaining = 0 then rest.sleeps else config.retry_delay :: rest.sleeps }

/-- `OllamaProvider.generate`: reject when the provider is not initialized
(no client or status not `READY`), otherwise run the retry loop.  The
`_process_thinking_response` post-processing (a `re`-based rewrite of
think-tags) is the parameter `pt`. -/
def ollama_generate (config : LLMConfig) (pt : String → String)
    (clientPresent : Bool) (status : LLMStatus) (rid : String)
    (oracle : Nat → AttemptOutcome) : GenTrace :=
  if ¬ clientPresent ∨ status ≠ .ready then
    { result := .error
        { kind := .connection_error
          message := "Ollama provider not initialized"
          provider := .ollama
          request_id := some rid }
      attempts := 0
      sleeps := [] }
  else
    genLoop config pt rid oracle 0 config.max_retries

/-! ## Router (`router.py`) -/

/-- The audit record built by `DataBoundary.create_audit_record` and
augmented by `generate_dax` before being appended to `self._request_log`. -/
structure AuditRecord where
  schema_hash : String
  table_count : Nat
  column_count : Nat
  measure_count : Nat
  relationship_count : Nat
  tables : List String
  data_included : Bool
  violations : List String
  request_id : String
  user_intent : String
  response_tokens : Option Nat
  success : Bool
  deriving Repr, DecidableEq

/-- `DataBoundary.create_audit_record` on the sanitized schema (the fields
later filled in by `generate_dax` are passed explicitly). -/
def create_audit_record (sha : String → String) (violations : List String)
    (s : SchemaInfo) (rid intent : String) (tokens : Option Nat) (succ : Bool) :
    AuditRecord :=
  { schema_hash := get_hash sha s
    table_count := s.tables.length
    column_count := (s.tables.map (fun t => t.columns.length)).sum
    measure_count := s.measures.length
    relationship_count := s.relationships.length
    tables := s.tables.map TableInfo.name
    data_included := false
    violations := violations
    request_id := rid
    user_intent := intent
    response_tokens := tokens
    success := succ }

/-- Errors surfaced by `LLMRouter.generate_dax`: the propagated
`DataBoundaryViolation` (carrying the violation list) or the
`LLMProviderError` raised when no provider is available. -/
inductive RouterErr where
  | boundary (violations : List String)
  | no_provider (request_id : String)
  deriving Repr, DecidableEq

/-- A ready provider as the router sees it: its `generate_dax` entry point,
mapping (prompt string, intent, request id) to a response. -/
structure ProviderStub where
  gen : String → String → String → LLMResponse

/-- Observable outcome of one `LLMRouter.generate_dax` call: the result, a
flag recording whether the provider's generate entry point was invoked, and
the router's request log (`self._request_log`) after the call. -/
structure DaxOutcome where
  result : Except RouterErr LLMResponse
  provider_called : Bool
  log : List AuditRecord

/-- `LLMRouter.generate_dax`: enforce the data boundary first (propagating
`DataBoundaryViolation`), then build the audit record, select the provider
(`_get_provider`, modelled as an optional ready provider), call it, and
append the augmented audit record to the request log. -/
def generate_dax (leak : String → Bool) (sha : String → String) (db : DataBoundary)
    (provider : Option ProviderStub) (log : List AuditRecord)
    (schema : SchemaInfo) (intent rid : String) : DaxOutcome :=
  match validate_schema leak db schema with
  | .error v => { result := .error (.boundary v), provider_called := false, log := log }
  | .ok s =>
      let viol := (validate_schema_pair leak db schema).2
      match provider with
      | none => { result := .error (.no_provider rid), provider_called := false, log := log }
      | some p =>
          let resp := p.gen (to_prompt_string s) intent rid
          { result := .ok resp
            provider_called := true
            log := log ++ [create_audit_record sha viol s rid intent resp.total_tokens
                            (responseSuccess resp)] }

/-- Outcome of `LLMRouter.initialize_provider`: the returned/raised value,
whether a provider object was constructed, and whether its `initialize`
method was invoked. -/
structure InitProviderOutcome where
  result : Except LLMProviderErr Bool
  constructed : Bool
  init_called : Bool
  deriving Repr, DecidableEq

/-- `LLMRouter.initialize_provider`: in `"airgap"` deployment mode any
non-Ollama provider type is rejected with a non-recoverable
`LLMProviderError` before the provider is constructed; otherwise only the
Ollama provider can be constructed (any other type raises "Unknown provider
type").  The result of the provider's own `initialize` is the oracle
`initResult`. -/
def init_provider (deployment_mode : String) (config : LLMConfig)
    (initResult : Bool) : InitProviderOutcome :=
  if deployment_mode = "airgap" ∧ config.provider_type ≠ .ollama then
    { result := .error
        { kind := .provider_error
          message := "Air-gap mode only supports Ollama"
          provider := config.provider_type
          recoverable := false }
      constructed := false
      init_called := false }
  else if config.provider_type = .ollama then
    { result := .ok initResult, constructed := true, init_called := true }
  else
    { result := .error
        { kind := .provider_error
          message := "Unknown provider type"
          provider := config.provider_type
          recoverable := false }
      constructed := false
      init_called := false }

/-! ## Audit logger (`audit_logger.py`)

The logger appends newline-delimited JSON events to a segment file whose
first line is a header.  Each event stores `previous_hash`, the SHA-256 of
the previously written line, and (when signing is enabled) an HMAC-SHA256
over a canonical sorted-key JSON object of five fields.  SHA-256 is the
parameter `H : String -> String` and keyed HMAC-SHA256 the parameter
`mac : String -> String -> String` (key, text); JSON string escaping is
elided (field values are taken escape-free), which does not affect any
statement below since hash and signature distinctness enter only as explicit
hypotheses on the concrete serialized strings. -/

/-- The caller-supplied fields of one audit event (`AuditLogger.log`
arguments plus the generated id and timestamp). -/
structure EventInput where
  event_id : String
  event_type : String
  severity : String
  message : String
  timestamp : String
  user_id : Option String := none
  session_id : Option String := none
  request_id : Option String := none
  details : String := "\x7b\x7d"
  deriving Repr, DecidableEq

/-- One event as written to the segment file (`AuditEvent` after `log` has
filled `previous_hash` and `signature`). -/
structure AuditEventRec extends EventInput where
  previous_hash : String
  signature : Option String := none
  deriving Repr, DecidableEq

/-- A JSON string literal (escaping elided, see the section comment). -/
def jsonQuote (s : String) : String :=
  "\"" ++ s ++ "\""

/-- A JSON value that is a string or `null`. -/
def jsonOpt : Option String → String
  | none => "null"
  | some s => jsonQuote s

/-- `AuditEvent.to_json`: one JSON line with the fields in `to_dict` order. -/
def eventToJson (e : AuditEventRec) : String :=
  "\x7b\"event_id\": " ++ jsonQuote e.event_id
    ++ ", \"event_type\": " ++ jsonQuote e.event_type
    ++ ", \"severity\": " ++ jsonQuote e.severity
    ++ ", \"message\": " ++ jsonQuote e.message
    ++ ", \"timestamp\": " ++ jsonQuote e.timestamp
    ++ ", \"user_id\": " ++ jsonOpt e.user_id
    ++ ", \"session_id\": " ++ jsonOpt e.session_id
    ++ ", \"request_id\": " ++ jsonOpt e.request_id
    ++ ", \"details\": " ++ e.details
    ++ ", \"previous_hash\": " ++ jsonQuote e.previous_hash
    ++ ", \"signature\": " ++ jsonOpt e.signature
    ++ "\x7d"

/-- The canonical signing payload of `_sign_event` and
`_compute_signature_for_verification`: `json.dumps` of the five fields with
`sort_keys=True` (alphabetical key order). -/
def canonicalOf (e : AuditEventRec) : String :=
  "\x7b\"event_id\": " ++ jsonQuote e.event_id
    ++ ", \"event_type\": " ++ jsonQuote e.event_type
    ++ ", \"message\": " ++ jsonQuote e.message
    ++ ", \"previous_hash\": " ++ jsonQuote e.previous_hash
    ++ ", \"timestamp\": " ++ jsonQuote e.timestamp
    ++ "\x7d"

/-- The header line written by `_initialize_log` (its `created_at` value is
the parameter). -/
def headerLine (createdAt : String) (signing : Bool) : String :=
  "\x7b\"log_version\": \"1.0\", \"created_at\": " ++ jsonQuote createdAt
    ++ ", \"server_version\": \"3.0.0\", \"signing_enabled\": "
    ++ (if signing then "true" else "false") ++ "\x7d"

/-- One `AuditLogger.log` call: stamp the event with the current
`previous_hash` cursor and sign it when signing is enabled (the signature
covers the canonical fields including the stamped `previous_hash`). -/
def stampEvent (mac : String → String → String) (key : String) (sign : Bool)
    (prev : String) (e : EventInput) : AuditEventRec :=
  let base : AuditEventRec := { toEventInput := e, previous_hash := prev }
  if sign then { base with signature := some (mac key (canonicalOf base)) } else base

/-- Repeated `AuditLogger.log` calls within one segment: starting from the
current `previous_hash` cursor, each event is stamped with the cursor,
signed when signing is enabled, and the cursor advances to the hash of the
serialized line just written. -/
def buildLog (H : String → String) (mac : String → String → String) (key : String)
    (sign : Bool) : String → List EventInput → List AuditEventRec
  | _, [] => []
  | prev, e :: rest =>
      stampEvent mac key sign prev e
        :: buildLog H mac key sign (H (eventToJson (stampEvent mac key sign prev e))) rest

/-- The event record at index `i` of `buildLog H mac key sign prev events`. -/
def builtAt (H : String → String) (mac : String → String → String) (key : String)
    (sign : Bool) : String → List EventInput → Nat → Option AuditEventRec
  | _, [], _ => none
  | prev, e :: rest, i =>
      match i with
      | 0 => some (stampEvent mac key sign prev e)
      | i + 1 =>
          builtAt H mac key sign (H (eventToJson (stampEvent mac key sign prev e))) rest i

/-- Replace the `message` field of the event line at index `i` of a written
segment, leaving its stored `previous_hash` and `signature` untouched (a
byte edit of that line's message field). -/
def tamperMessage : List AuditEventRec → Nat → String → List AuditEventRec
  | [], _, _ => []
  | e :: rest, 0, m => { e with message := m } :: rest
  | e :: rest, i + 1, m => e :: tamperMessage rest i m

/-- The hash-chain check of `verify_integrity` for one line: the stored
`previous_hash` must equal the recomputed hash of the previous line. -/
def chainCheck (prev : String) (idx : Nat) (e : AuditEventRec) : List Nat :=
  if e.previous_hash ≠ prev then [idx] else []

/-- The signature check of `verify_integrity` for one line: performed only
when signing is enabled and the line carries a signature; the stored
signature must equal the recomputed HMAC over the canonical fields. -/
def sigCheck (mac : String → String → String) (key : String) (sign : Bool)
    (idx : Nat) (e : AuditEventRec) : List Nat :=
  if sign then
    match e.signature with
    | some s => if s ≠ mac key (canonicalOf e) then [idx] else []
    | none => []
  else []

/-- The event-line part of `AuditLogger.verify_integrity`: walk the lines,
run the chain check and the signature check on each, and always advance the
expected hash from the actual line content.  Returns (chain failure
indices, signature failure indices); `idx` is the file line number (the
header is line 0). -/
def verifyFrom (H : String → String) (mac : String → String → String) (key : String)
    (sign : Bool) : String → Nat → List AuditEventRec → List Nat × List Nat
  | _, _, [] => ([], [])
  | prev, idx, e :: rest =>
      let r := verifyFrom H mac key sign (H (eventToJson e)) (idx + 1) rest
      (chainCheck prev idx e ++ r.1, sigCheck mac key sign idx e ++ r.2)

/-- `AuditLogger.verify_integrity` on one segment: the header line seeds the
expected hash, then the event lines are checked in order (event `k` is file
line `k + 1`). -/
def verify_integrity (H : String → String) (mac : String → String → String)
    (key : String) (sign : Bool) (hdr : String) (events : List AuditEventRec) :
    List Nat × List Nat :=
  verifyFrom H mac key sign (H hdr) 1 events

/-- A whole untampered segment as produced by the logger: header plus the
chained event lines seeded from the header hash. -/
def logSegment (H : String → String) (mac : String → String → String) (key : String)
    (sign : Bool) (createdAt : String) (events : List EventInput) : List AuditEventRec :=
  buildLog H mac key sign (H (headerLine createdAt sign)) events

/-! ## Shared helper lemmas -/

theorem flatList_eq_nil {α β : Type} (f : α → List β) (l : List α)
    (h : ∀ x ∈ l, f x = []) : flatList f l = [] := by
  induction l with
  | nil => rfl
  | cons a l ih =>
      simp only [flatList, h a (List.mem_cons_self a l),
        ih (fun x hx => h x (List.mem_cons_of_mem a hx)), List.nil_append]

theorem flatList_filter {α β : Type} (f : α → List β) (p : α → Bool) (l : List α)
    (h : ∀ x, p x = false → f x = []) : flatList f (l.filter p) = flatList f l := by
  induction l with
  | nil => rfl
  | cons a l ih =>
      by_cases hp : p a
      · simp only [List.filter_cons_of_pos hp, flatList, ih]
      · have : f a = [] := h a (Bool.eq_false_iff.mpr hp)
        simp only [List.filter_cons_of_neg hp, flatList, this, List.nil_append, ih]

theorem trimList_eq_rdrop (l : List Char) :
    trimList l = List.rdropWhile pyWs (List.dropWhile pyWs l) := rfl

theorem dropWhile_of_isPrefix {α : Type} (p : α → Bool) {x y : List α}
    (hx : List.dropWhile p x = x) (h : y <+: x) : List.dropWhile p y = y := by
  cases y with
  | nil => rfl
  | cons a t =>
      have hax : ∃ r, x = a :: r := by
        rcases h with ⟨s, hs⟩
        exact ⟨t ++ s, by simp [← hs]⟩
      rcases hax with ⟨r, rfl⟩
      have hpa : ¬ p a := by
        intro hp
        rw [List.dropWhile_cons, if_pos hp] at hx
        have hle := (List.dropWhile_suffix (l := r) p).sublist.length_le
        rw [hx] at hle
        simp at hle
      rw [List.dropWhile_cons, if_neg hpa]

theorem trimList_trimList (l : List Char) : trimList (trimList l) = trimList l := by
  rw [trimList_eq_rdrop, trimList_eq_rdrop]
  set x := List.dropWhile pyWs l with hx
  have h1 : List.dropWhile pyWs x = x := List.dropWhile_idempotent pyWs l
  have h2 : List.rdropWhile pyWs x <+: x := List.rdropWhile_prefix pyWs x
  rw [dropWhile_of_isPrefix pyWs h1 h2, List.rdropWhile_idempotent]

theorem trimList_sublist (l : List Char) : List.Sublist (trimList l) l := by
  rw [trimList_eq_rdrop]
  exact (( List.rdropWhile_prefix pyWs _).sublist).trans
    ((List.dropWhile_suffix pyWs).sublist)

theorem strStrip_strStrip (s : String) : strStrip (strStrip s) = strStrip s := by
  simp only [strStrip, trimList_trimList]

theorem sanitize_identifier_idem (x : String) :
    sanitize_identifier (sanitize_identifier x) = sanitize_identifier x := by
  unfold sanitize_identifier
  set p : Char → Bool := fun c => decide (¬ c ∈ badIdentChars) with hp
  set m := x.data.filter p with hm
  have hsub : List.Sublist (trimList m) m := trimList_sublist m
  have hfil : (trimList m).filter p = trimList m := by
    rw [List.filter_eq_self]
    intro a ha
    exact List.of_mem_filter (hsub.subset ha)
  show strStrip (String.mk ((strStrip (String.mk m)).data.filter p)) = _
  simp only [strStrip, hfil]
  rw [trimList_trimList]

theorem strLen_take_append (t : String) (n : Nat) (x : String) (h : strLen t > n) :
    strTake (strTake t n ++ x) n = strTake t n := by
  simp only [strTake, strLen] at *
  have hlen : (t.data.take n).length = n := by
    rw [List.length_take]
    omega
  have hd : (String.mk (t.data.take n) ++ x).data = t.data.take n ++ x.data := rfl
  rw [hd, List.take_append_eq_append_take, hlen]
  simp [List.take_take]

theorem truncateText_idem (t : String) (n : Nat) :
    truncateText (truncateText t n) n = truncateText t n := by
  unfold truncateText
  by_cases h : strLen t > n
  · simp only [if_pos h]
    have hlen : strLen (strTake t n ++ "...") > n := by
      simp only [strLen, strTake]
      have hd : (String.mk (t.data.take n) ++ "...").data = t.data.take n ++ "...".data := rfl
      rw [hd, List.length_append, List.length_take]
      simp only [strLen] at h
      have h3 : "...".data.length = 3 := rfl
      omega
    rw [if_pos hlen, strLen_take_append t n "..." h]
  · rw [if_neg h, if_neg h]

theorem truncateText_ne_empty (t : String) (n : Nat) (h : t ≠ "") :
    truncateText t n ≠ "" := by
  unfold truncateText
  by_cases hl : strLen t > n
  · rw [if_pos hl]
    intro hc
    have hd : (strTake t n ++ "...").data = t.data.take n ++ "...".data := rfl
    have hdata : (strTake t n ++ "...").data = [] := by rw [hc]
    rw [hd] at hdata
    simp at hdata
  · rw [if_neg hl]
    exact h

/-! ## C10: hidden tables are omitted from the canonical prompt -/

/-- Claim C10: for every schema, the canonical prompt string produced by
`to_prompt_string` contains no section for any hidden table — the prompt
equals the prompt of the same schema with all hidden tables removed — while
sanitization keeps every table (hidden ones included, with their hidden
flag) in the schema object. -/
theorem c10_hidden_tables_omitted (s : SchemaInfo) (leak : String → Bool)
    (db : DataBoundary) :
    to_prompt_string s
      = to_prompt_string { s with tables := s.tables.filter (fun t => !t.is_hidden) } ∧
    (validate_schema_pair leak db s).1.tables.map TableInfo.is_hidden
      = s.tables.map TableInfo.is_hidden := by
  constructor
  · unfold to_prompt_string
    have hfl : flatList tableLines (s.tables.filter (fun t => !t.is_hidden))
        = flatList tableLines s.tables := by
      apply flatList_filter
      intro t ht
      have hhid : t.is_hidden = true := by
        by_contra hc
        simp [hc] at ht
      simp [tableLines, hhid]
    rw [hfl]
  · show ((s.tables.map (sanitize_table leak db)).map Prod.fst).map TableInfo.is_hidden
      = s.tables.map TableInfo.is_hidden
    rw [List.map_map, List.map_map]
    exact List.map_congr_left (fun a _ => rfl)

/-! ## C3: air-gap deployment policy in the router -/

/-- Claim C3: with `deployment_mode = "airgap"`, `initialize_provider`
rejects every non-Ollama provider kind with a non-recoverable error before
the provider object is constructed and before its initialization (and hence
any network activity) can happen. -/
theorem c3_airgap_policy (config : LLMConfig) (initResult : Bool)
    (h : config.provider_type ≠ .ollama) :
    init_provider "airgap" config initResult =
      { result := .error
          { kind := .provider_error
            message := "Air-gap mode only supports Ollama"
            provider := config.provider_type
            request_id := none
            recoverable := false }
        constructed := false
        init_called := false } := by
  unfold init_provider
  rw [if_pos ⟨rfl, h⟩]

/-- Witness for C3 at a concrete Azure provider config. -/
theorem c3_airgap_policy_witness :
    ({ provider_type := .azure_foundry, endpoint := "https://example.azure.com",
       model := "gpt-4o" } : LLMConfig).provider_type ≠ .ollama ∧
    (init_provider "airgap"
        { provider_type := .azure_foundry, endpoint := "https://example.azure.com",
          model := "gpt-4o" } true).init_called = false :=
  ⟨by decide,
   by rw [c3_airgap_policy
       { provider_type := .azure_foundry, endpoint := "https://example.azure.com",
         model := "gpt-4o" } true (by decide)]⟩

/-! ## C1: fail-closed boundary in `generate_dax` -/

/-- Claim C1: if sanitization records at least one violation and the
boundary is in strict mode, `validate_schema` fails with the full violation
list, and `generate_dax` propagates that failure without invoking any
provider and without appending to the router's request log. -/
theorem c1_fail_closed (leak : String → Bool) (sha : String → String)
    (db : DataBoundary) (provider : Option ProviderStub) (log : List AuditRecord)
    (schema : SchemaInfo) (intent rid : String)
    (hstrict : db.strict_mode = true)
    (hviol : (validate_schema_pair leak db schema).2 ≠ []) :
    validate_schema leak db schema = .error (validate_schema_pair leak db schema).2 ∧
    generate_dax leak sha db provider log schema intent rid =
      { result := .error (.boundary (validate_schema_pair leak db schema).2)
        provider_called := false
        log := log } := by
  have hv : validate_schema leak db schema
      = .error (validate_schema_pair leak db schema).2 := by
    unfold validate_schema
    rw [if_pos ⟨hviol, hstrict⟩]
  refine ⟨hv, ?_⟩
  unfold generate_dax
  rw [hv]

/-- Concrete leak scan used by witnesses and counterexamples: the text
contains an `@` character.  On every concrete string used below this agrees
with the real `DATA_LEAK_PATTERNS` scan (the email regex matches
`"contact a@b.com"`; none of the other strings used matches any pattern). -/
def leakAt (s : String) : Bool :=
  s.data.any (fun c => c = '@')

/-- A schema whose model description matches the email leak pattern. -/
def emailSchema : SchemaInfo :=
  { model_description := some "contact a@b.com" }

/-- Witness for C1: a strict boundary on `emailSchema` records a violation,
and `generate_dax` fails closed with an untouched request log. -/
theorem c1_fail_closed_witness :
    ({ } : DataBoundary).strict_mode = true ∧
    (validate_schema_pair leakAt { } emailSchema).2 ≠ [] ∧
    generate_dax leakAt (fun _ => "") { } none [] emailSchema "intent" "r1" =
      { result := .error (.boundary (validate_schema_pair leakAt { } emailSchema).2)
        provider_called := false
        log := [] } :=
  ⟨by decide, by decide,
   (c1_fail_closed leakAt (fun _ => "") { } none [] emailSchema "intent" "r1"
      (by decide) (by decide)).2⟩

/-! ## C4: redaction polarity of `_sanitize_text` -/

theorem sanitize_text_hit (leak : String → Bool) (strict : Bool) (t : String) (n : Nat)
    (hleak : leak t = true) (hne : t ≠ "") :
    sanitize_text leak strict t n =
      if strict then (some "[REDACTED]", [textViolationMsg t])
      else (some (truncateText t n), [textViolationMsg t]) := by
  simp [sanitize_text, hne, hleak]

/-- A boundary configured with `strict_mode=False`. -/
def nsBoundary : DataBoundary :=
  { strict_mode := false }

/-- Counterexample to C4 as stated: with `strict_mode=false` on a schema
whose description matches the email leak pattern, the sanitized field is
the original text, not `"[REDACTED]"` (the claim asserts the opposite
polarity), although a violation is recorded. -/
theorem c4_counterexample :
    (validate_schema_pair leakAt nsBoundary emailSchema).1.model_description
      = some "contact a@b.com" ∧
    (validate_schema_pair leakAt nsBoundary emailSchema).1.model_description
      ≠ some "[REDACTED]" ∧
    (validate_schema_pair leakAt nsBoundary emailSchema).2 ≠ [] := by
  decide

/-- Claim C4 amended: on a schema whose model description matches a leak
pattern, sanitization always records a violation; with `strict_mode=true`
the field is redacted to `"[REDACTED]"` and the call fails with
`DataBoundaryViolation`; with `strict_mode=false` the call succeeds and the
field is passed through (merely truncated), not replaced by
`"[REDACTED]"`. -/
theorem c4_redaction_polarity (leak : String → Bool) (db : DataBoundary)
    (t : String) (schema : SchemaInfo)
    (hleak : leak t = true) (hne : t ≠ "") (hmd : schema.model_description = some t) :
    (validate_schema_pair leak db schema).2 ≠ [] ∧
    (db.strict_mode = true →
      validate_schema leak db schema = .error (validate_schema_pair leak db schema).2 ∧
      (validate_schema_pair leak db schema).1.model_description = some "[REDACTED]") ∧
    (db.strict_mode = false →
      validate_schema leak db schema = .ok (validate_schema_pair leak db schema).1 ∧
      (validate_schema_pair leak db schema).1.model_description
        = some (truncateText t MAX_TABLE_DESCRIPTION_LENGTH)) := by
  have hmd1 : sanitize_model_desc leak db schema.model_description
      = sanitize_text leak db.strict_mode t MAX_TABLE_DESCRIPTION_LENGTH := by
    simp [sanitize_model_desc, hmd, hne]
  have hhit := sanitize_text_hit leak db.strict_mode t MAX_TABLE_DESCRIPTION_LENGTH hleak hne
  have hv : (validate_schema_pair leak db schema).2 ≠ [] := by
    show violations_of leak db schema ≠ []
    unfold violations_of
    rw [hmd1, hhit]
    cases hdb : db.strict_mode <;> simp
  refine ⟨hv, ?_, ?_⟩
  · intro hstrict
    refine ⟨?_, ?_⟩
    · unfold validate_schema
      rw [if_pos ⟨hv, hstrict⟩]
    · show (sanitize_model_desc leak db schema.model_description).1 = some "[REDACTED]"
      rw [hmd1, hhit, hstrict]
      rfl
  · intro hstrict
    refine ⟨?_, ?_⟩
    · unfold validate_schema
      rw [if_neg]
      rintro ⟨-, hs⟩
      rw [hstrict] at hs
      cases hs
    · show (sanitize_model_desc leak db schema.model_description).1
        = some (truncateText t MAX_TABLE_DESCRIPTION_LENGTH)
      rw [hmd1, hhit, hstrict]
      rfl

/-- Witness for C4 amended, in strict mode at the concrete email schema. -/
theorem c4_redaction_polarity_witness :
    (validate_schema_pair leakAt { } emailSchema).2 ≠ [] ∧
    validate_schema leakAt { } emailSchema
      = .error (validate_schema_pair leakAt { } emailSchema).2 ∧
    (validate_schema_pair leakAt { } emailSchema).1.model_description
      = some "[REDACTED]" :=
  ⟨(c4_redaction_polarity leakAt { } "contact a@b.com" emailSchema
      (by decide) (by decide) rfl).1,
   (c4_redaction_polarity leakAt { } "contact a@b.com" emailSchema
      (by decide) (by decide) rfl).2.1 rfl⟩

/-! ## C5: long-but-clean input -/

theorem sanitize_text_clean (leak : String → Bool) (strict : Bool) (t : String) (n : Nat)
    (h : leak t = false) : (sanitize_text leak strict t n).2 = [] := by
  by_cases he : t = "" <;> simp [sanitize_text, he, h]

theorem descField_clean (leak : String → Bool) (db : DataBoundary) (od : Option String)
    (n : Nat) (h : ∀ d, od = some d → leak d = false) :
    (descField leak db od n).2 = [] := by
  cases od with
  | none => rfl
  | some d =>
      show (if db.allow_descriptions = true ∧ d ≠ "" then
              sanitize_text leak db.strict_mode d n else (none, [])).2 = []
      split
      · exact sanitize_text_clean leak db.strict_mode d n (h d rfl)
      · rfl

theorem sanitize_table_clean (leak : String → Bool) (db : DataBoundary) (tb : TableInfo)
    (hd : ∀ d, tb.description = some d → leak d = false)
    (hc : ∀ c ∈ tb.columns, ∀ d, c.description = some d → leak d = false) :
    (sanitize_table leak db tb).2 = [] := by
  unfold sanitize_table
  have h1 : flatList Prod.snd (tb.columns.map (fun col =>
      let d := descField leak db col.description MAX_COLUMN_DESCRIPTION_LENGTH
      (({ name := sanitize_identifier col.name
          data_type := col.data_type
          table_name := tb.name
          description := d.1
          is_key := col.is_key
          is_nullable := col.is_nullable } : ColumnInfo), d.2))) = [] := by
    apply flatList_eq_nil
    intro x hx
    rcases List.mem_map.mp hx with ⟨col, hcol, rfl⟩
    exact descField_clean leak db col.description MAX_COLUMN_DESCRIPTION_LENGTH
      (hc col hcol)
  simp only [h1, List.nil_append]
  exact descField_clean leak db tb.description MAX_TABLE_DESCRIPTION_LENGTH hd

theorem sanitize_measure_clean (leak : String → Bool) (db : DataBoundary) (m : MeasureInfo)
    (hlen : strLen m.expression ≤ MAX_MEASURE_EXPRESSION_LENGTH)
    (hlk : leak m.expression = false)
    (hd : ∀ d, m.description = some d → leak d = false) :
    (sanitize_measure leak db m).2 = [] := by
  have hnlen : ¬ strLen m.expression > MAX_MEASURE_EXPRESSION_LENGTH := by omega
  unfold sanitize_measure
  simp only [if_neg hnlen, hlk]
  simp [descField_clean leak db m.description MAX_COLUMN_DESCRIPTION_LENGTH hd]

theorem validate_final_clean (leak : String → Bool) (s : SchemaInfo)
    (hsize : strLen (to_prompt_string s) ≤ 50000)
    (hlk : leak (to_prompt_string s) = false) :
    validate_final leak s = [] := by
  have hns : ¬ strLen (to_prompt_string s) > 50000 := by omega
  simp [validate_final, hns, hlk]

/-- Claim C5 amended: with `strict_mode=false`, `validate_schema` never
fails; with `strict_mode=true` it succeeds on any schema that is leak-free
in every scanned field, has no measure expression over 2000 characters and
serializes below the 50 KB ceiling.  (The counterexample shows that an
over-long — though clean — measure expression does make strict mode fail, so
"never fails regardless of field lengths" is too strong.) -/
theorem c5_clean_no_failure (leak : String → Bool) (db : DataBoundary)
    (schema : SchemaInfo) :
    (db.strict_mode = false →
      validate_schema leak db schema = .ok (validate_schema_pair leak db schema).1) ∧
    (db.strict_mode = true →
      (∀ t, schema.model_description = some t → leak t = false) →
      (∀ tb ∈ schema.tables,
        (∀ d, tb.description = some d → leak d = false) ∧
        (∀ c ∈ tb.columns, ∀ d, c.description = some d → leak d = false)) →
      (∀ m ∈ schema.measures,
        strLen m.expression ≤ MAX_MEASURE_EXPRESSION_LENGTH ∧
        leak m.expression = false ∧
        (∀ d, m.description = some d → leak d = false)) →
      strLen (to_prompt_string (sanitized_of leak db schema)) ≤ 50000 →
      leak (to_prompt_string (sanitized_of leak db schema)) = false →
      validate_schema leak db schema = .ok (validate_schema_pair leak db schema).1) := by
  constructor
  · intro hstrict
    unfold validate_schema
    rw [if_neg]
    rintro ⟨-, hs⟩
    rw [hstrict] at hs
    cases hs
  · intro _ hmd htab hmeas hsize hlk
    have hviol : violations_of leak db schema = [] := by
      unfold violations_of
      have h1 : (sanitize_model_desc leak db schema.model_description).2 = [] := by
        cases hm : schema.model_description with
        | none => rfl
        | some t =>
            show (if t ≠ "" then
                    sanitize_text leak db.strict_mode t MAX_TABLE_DESCRIPTION_LENGTH
                  else (none, [])).2 = []
            split
            · exact sanitize_text_clean leak db.strict_mode t
                MAX_TABLE_DESCRIPTION_LENGTH (hmd t hm)
            · rfl
      have h2 : flatList Prod.snd (schema.tables.map (sanitize_table leak db)) = [] := by
        apply flatList_eq_nil
        intro x hx
        rcases List.mem_map.mp hx with ⟨tb, htb, rfl⟩
        exact sanitize_table_clean leak db tb (htab tb htb).1 (htab tb htb).2
      have h3 : flatList Prod.snd
          (if db.allow_measures then schema.measures.map (sanitize_measure leak db)
           else []) = [] := by
        split
        · apply flatList_eq_nil
          intro x hx
          rcases List.mem_map.mp hx with ⟨m, hm, rfl⟩
          exact sanitize_measure_clean leak db m (hmeas m hm).1 (hmeas m hm).2.1
            (hmeas m hm).2.2
        · rfl
      have h4 : validate_final leak (sanitized_of leak db schema) = [] :=
        validate_final_clean leak _ hsize hlk
      rw [h1, h2, h3, h4]
      rfl
    unfold validate_schema
    rw [if_neg]
    rintro ⟨hne, -⟩
    exact hne hviol

/-- A leak scan that never fires (models a schema clean under all
patterns). -/
def leakNone (_ : String) : Bool :=
  false

/-- A clean 2001-character measure expression. -/
def longExpr : String :=
  String.mk (List.replicate 2001 'A')

/-- A schema whose only content is one measure with a clean but over-long
expression. -/
def longMeasureSchema : SchemaInfo :=
  { measures := [{ name := "M", expression := longExpr, table_name := "T" }] }

/-- Counterexample to C5 as stated: a schema that matches no leak pattern
but has a 2001-character measure expression makes strict-mode sanitization
fail with `DataBoundaryViolation` (the truncation records a violation, and
strict mode escalates every violation). -/
theorem strData_append (a b : String) : (a ++ b).data = a.data ++ b.data := by
  cases a
  cases b
  rfl

theorem strLen_append (a b : String) : strLen (a ++ b) = strLen a + strLen b := by
  rw [strLen, strData_append, List.length_append]
  rfl

theorem strLen_longExpr : strLen longExpr = 2001 := by
  show (List.replicate 2001 'A').length = 2001
  exact List.length_replicate 2001 'A'

/-- The truncated form of `longExpr` produced by `_sanitize_measure`. -/
def longExprTrunc : String :=
  strTake longExpr MAX_MEASURE_EXPRESSION_LENGTH ++ "..."

theorem strLen_longExprTrunc : strLen longExprTrunc = 2003 := by
  rw [longExprTrunc, strLen_append]
  have h1 : strLen (strTake longExpr MAX_MEASURE_EXPRESSION_LENGTH) = 2000 := by
    show ((List.replicate 2001 'A').take 2000).length = 2000
    rw [List.length_take, List.length_replicate]
    decide
  rw [h1]
  rfl

/-- The sanitized measure produced from `longMeasureSchema`'s measure. -/
def longMeasureSan : MeasureInfo :=
  { name := "M", expression := longExprTrunc, table_name := "T" }

theorem sanitize_measure_long :
    sanitize_measure leakNone { } { name := "M", expression := longExpr, table_name := "T" }
      = (some longMeasureSan, [measureLenMsg "M"]) := by
  have hgt : strLen longExpr > MAX_MEASURE_EXPRESSION_LENGTH := by
    rw [strLen_longExpr]
    decide
  have hid : sanitize_identifier "M" = "M" := by decide
  have hlk : leakNone longExprTrunc = false := rfl
  unfold sanitize_measure
  simp only [if_pos hgt]
  rw [show (strTake longExpr MAX_MEASURE_EXPRESSION_LENGTH ++ "...") = longExprTrunc
      from rfl]
  rw [if_neg (fun h => Bool.false_ne_true (hlk ▸ h))]
  rw [hid]
  rfl

theorem sanitized_of_long :
    sanitized_of leakNone { } longMeasureSchema
      = { measures := [longMeasureSan] } := by
  unfold sanitized_of longMeasureSchema
  simp only [List.map_nil, List.map_cons, sanitize_measure_long, List.filterMap_cons,
    List.filterMap_nil]
  rfl

theorem prompt_long_small :
    strLen (to_prompt_string (sanitized_of leakNone { } longMeasureSchema)) ≤ 50000 := by
  rw [sanitized_of_long]
  have hshape : to_prompt_string { measures := [longMeasureSan] }
      = "TABLES:" ++ "\n" ++ ("\nMEASURES:" ++ "\n" ++ ("  - [T].[M]" ++ "\n"
        ++ ("    Expression: " ++ longExprTrunc))) := rfl
  rw [hshape]
  simp only [strLen_append, strLen_longExprTrunc]
  have hA : strLen "TABLES:" = 7 := rfl
  have hB : strLen "\n" = 1 := rfl
  have hC : strLen "\nMEASURES:" = 10 := rfl
  have hD : strLen "  - [T].[M]" = 11 := rfl
  have hE : strLen "    Expression: " = 16 := rfl
  rw [hA, hB, hC, hD, hE]
  omega

set_option maxRecDepth 2048 in
/-- Counterexample to C5 as stated: a schema that matches no leak pattern
but has a 2001-character measure expression makes strict-mode sanitization
fail with `DataBoundaryViolation` (the truncation records a violation, and
strict mode escalates every violation). -/
theorem c5_counterexample :
    validate_schema leakNone { } longMeasureSchema = .error [measureLenMsg "M"] := by
  have hviol : violations_of leakNone { } longMeasureSchema = [measureLenMsg "M"] := by
    unfold violations_of
    have h4 : validate_final leakNone (sanitized_of leakNone { } longMeasureSchema) = [] :=
      validate_final_clean leakNone _ prompt_long_small rfl
    rw [h4]
    have hA : (sanitize_model_desc leakNone { } longMeasureSchema.model_description).2
        = [] := rfl
    have hB : flatList Prod.snd
        (longMeasureSchema.tables.map (sanitize_table leakNone { })) = [] := rfl
    have hC : flatList Prod.snd
        (if ({ } : DataBoundary).allow_measures then
           longMeasureSchema.measures.map (sanitize_measure leakNone { })
         else []) = [measureLenMsg "M"] := by
      rw [show (if ({ } : DataBoundary).allow_measures then
            longMeasureSchema.measures.map (sanitize_measure leakNone { })
          else []) = longMeasureSchema.measures.map (sanitize_measure leakNone { })
          from if_pos rfl]
      rw [show longMeasureSchema.measures
          = [{ name := "M", expression := longExpr, table_name := "T" }] from rfl]
      rw [List.map_singleton, sanitize_measure_long]
      rfl
    rw [hA, hB, hC]
    simp
  unfold validate_schema
  rw [if_pos ⟨by rw [show (validate_schema_pair leakNone { } longMeasureSchema).2
        = violations_of leakNone { } longMeasureSchema from rfl, hviol]; decide, rfl⟩]
  show Except.error (violations_of leakNone { } longMeasureSchema) = _
  rw [hviol]

/-- Witness for C5 amended: the empty schema in strict mode sanitizes
successfully, and any schema in non-strict mode does. -/
theorem c5_clean_no_failure_witness :
    validate_schema leakNone { } { } = .ok (validate_schema_pair leakNone { } { }).1 ∧
    validate_schema leakNone nsBoundary longMeasureSchema
      = .ok (validate_schema_pair leakNone nsBoundary longMeasureSchema).1 :=
  ⟨(c5_clean_no_failure leakNone { } { }).2 rfl
      (by intro t ht; cases ht)
      (by intro tb htb; cases htb)
      (by intro m hm; cases hm)
      (by decide) rfl,
   (c5_clean_no_failure leakNone nsBoundary longMeasureSchema).1 rfl⟩

/-! ## C6: endpoint allow-listing in `initialize` -/

/-- An Ollama config whose endpoint host is `::1`: accepted by the
provider's hardcoded localhost check but absent from the configured default
allow-list. -/
def ipv6Config : LLMConfig :=
  { provider_type := .ollama, endpoint := "http://[::1]:11434", model := "m" }

/-- Counterexample to C6 as stated: the host `::1` does not match the
default allow-list `{127.0.0.1, localhost}` checked by
`_validate_endpoint`, yet `initialize` passes its localhost gate and
proceeds to the network probes. -/
theorem c6_counterexample :
    base_validate_endpoint ipv6Config = false ∧
    hostOf ipv6Config.endpoint = "::1" ∧
    ollama_init ipv6Config true true
      = { ok := true, status := .ready, network_attempted := true } := by
  decide

/-- Claim C6 amended: `OllamaProvider.initialize` gates on the fixed set
`{127.0.0.1, localhost, ::1}` (ignoring the configured allow-list); for any
endpoint host outside that set it returns `False` with status `Error`
before any network call is attempted. -/
theorem c6_localhost_gate (config : LLMConfig) (healthOk modelOk : Bool)
    (h : ¬ hostOf config.endpoint ∈ (["127.0.0.1", "localhost", "::1"] : List String)) :
    ollama_init config healthOk modelOk
      = { ok := false, status := .error, network_attempted := false } := by
  unfold ollama_init
  rw [if_pos]
  simp [validate_localhost_only, h]

/-- A non-local Ollama config (a LAN address). -/
def lanConfig : LLMConfig :=
  { provider_type := .ollama, endpoint := "http://192.168.0.5:11434", model := "m" }

/-- Witness for C6 amended at a concrete LAN endpoint. -/
theorem c6_localhost_gate_witness :
    ollama_init lanConfig true true
      = { ok := false, status := .error, network_attempted := false } :=
  c6_localhost_gate lanConfig true true (by decide)

/-! ## C8, C9: retry behavior of `OllamaProvider.generate` -/

theorem genLoop_success (config : LLMConfig) (pt : String → String) (rid : String)
    (oracle : Nat → AttemptOutcome) (text : String) (p c : Option Nat) :
    ∀ (t remaining start : Nat),
    t + 1 ≤ remaining →
    (∀ j, j < t → oracle (start + j) = .timeout) →
    oracle (start + t) = .ok text p c →
    genLoop config pt rid oracle start remaining =
      { result := .ok
          { content := pt text, model := config.model, provider := .ollama,
            prompt_tokens := p, completion_tokens := c, total_tokens := totalTokens p c,
            request_id := some rid }
        attempts := t + 1
        sleeps := List.replicate t config.retry_delay } := by
  intro t
  induction t with
  | zero =>
      intro remaining start hle _ hok
      rw [Nat.add_zero] at hok
      match remaining, hle with
      | r + 1, _ =>
        simp only [genLoop, hok]
        rfl
  | succ t ih =>
      intro remaining start hle htimeout hok
      match remaining, hle with
      | r + 1, hle =>
        have h0 : oracle start = .timeout := by
          have h := htimeout 0 (Nat.succ_pos t)
          rwa [Nat.add_zero] at h
        have hr : t + 1 ≤ r := by omega
        have ht' : ∀ j, j < t → oracle (start + 1 + j) = .timeout := by
          intro j hj
          have h := htimeout (j + 1) (by omega)
          rwa [show start + (j + 1) = start + 1 + j by omega] at h
        have hok' : oracle (start + 1 + t) = .ok text p c := by
          rwa [show start + (t + 1) = start + 1 + t by omega] at hok
        have hrne : ¬ r = 0 := by omega
        simp only [genLoop, h0, ih r (start + 1) hr ht' hok', if_neg hrne]
        rfl

theorem genLoop_all_timeout (config : LLMConfig) (pt : String → String) (rid : String)
    (oracle : Nat → AttemptOutcome) (h : ∀ i, oracle i = .timeout) :
    ∀ remaining start, genLoop config pt rid oracle start remaining =
      { result := .error
          { kind := .timeout_error
            message := "Ollama request timed out after " ++ toString config.max_retries
              ++ " attempts"
            provider := .ollama
            request_id := some rid }
        attempts := remaining
        sleeps := List.replicate (remaining - 1) config.retry_delay } := by
  intro remaining
  induction remaining with
  | zero => intro start; rfl
  | succ r ih =>
      intro start
      simp only [genLoop, h start, ih (start + 1)]
      by_cases hr : r = 0
      · subst hr
        rfl
      · rw [if_neg hr]
        have hr1 : r - 1 + 1 = r := by omega
        show ({ result := _, attempts := r + 1,
                sleeps := List.replicate (r - 1 + 1) config.retry_delay } : GenTrace) = _
        rw [hr1]
        rfl

/-- Claim C8: a provider whose HTTP call times out on the first `k-1`
attempts and succeeds on attempt `k <= max_retries` makes `generate` return
the success response after exactly `k` attempts with a `retry_delay` sleep
between consecutive attempts; a provider that always times out makes
exactly `max_retries` attempts and then raises `LLMTimeoutError` naming the
attempt count. -/
theorem c8_retry_on_timeout (config : LLMConfig) (pt : String → String) (rid : String) :
    (∀ (oracle : Nat → AttemptOutcome) (k : Nat) (text : String) (p c : Option Nat),
      1 ≤ k → k ≤ config.max_retries →
      (∀ i, i + 1 < k → oracle i = .timeout) →
      oracle (k - 1) = .ok text p c →
      ollama_generate config pt true .ready rid oracle =
        { result := .ok
            { content := pt text, model := config.model, provider := .ollama,
              prompt_tokens := p, completion_tokens := c,
              total_tokens := totalTokens p c, request_id := some rid }
          attempts := k
          sleeps := List.replicate (k - 1) config.retry_delay }) ∧
    (∀ oracle : Nat → AttemptOutcome, (∀ i, oracle i = .timeout) →
      ollama_generate config pt true .ready rid oracle =
        { result := .error
            { kind := .timeout_error
              message := "Ollama request timed out after " ++ toString config.max_retries
                ++ " attempts"
              provider := .ollama
              request_id := some rid }
          attempts := config.max_retries
          sleeps := List.replicate (config.max_retries - 1) config.retry_delay }) := by
  have hready : ¬ (¬ true = true ∨ (LLMStatus.ready ≠ LLMStatus.ready)) := by simp
  constructor
  · intro oracle k text p c hk1 hkm htimeout hok
    unfold ollama_generate
    rw [if_neg hready]
    have ht' : ∀ j, j < k - 1 → oracle (0 + j) = .timeout := by
      intro j hj
      rw [Nat.zero_add]
      exact htimeout j (by omega)
    have hok' : oracle (0 + (k - 1)) = .ok text p c := by
      rwa [Nat.zero_add]
    have h := genLoop_success config pt rid oracle text p c (k - 1) config.max_retries 0
      (by omega) ht' hok'
    rw [h, show k - 1 + 1 = k by omega]
  · intro oracle htimeout
    unfold ollama_generate
    rw [if_neg hready]
    exact genLoop_all_timeout config pt rid oracle htimeout config.max_retries 0

/-- A local Ollama config with three retries and a distinctive delay. -/
def retryConfig : LLMConfig :=
  { provider_type := .ollama, endpoint := "http://127.0.0.1:11434", model := "m",
    max_retries := 3, retry_delay := 5 }

/-- An attempt oracle that times out once, then succeeds. -/
def onceTimeoutOracle : Nat → AttemptOutcome :=
  fun i => if i = 0 then .timeout else .ok "DAX" (some 2) (some 3)

/-- Witness for C8: one timeout then success gives two attempts and one
sleep; a permanent timeout gives three attempts and the timeout error. -/
theorem c8_retry_on_timeout_witness :
    ollama_generate retryConfig (fun s => s) true .ready "r8" onceTimeoutOracle =
      { result := .ok
          { content := "DAX", model := "m", provider := .ollama,
            prompt_tokens := some 2, completion_tokens := some 3,
            total_tokens := some 5, request_id := some "r8" }
        attempts := 2
        sleeps := [5, 5].take 1 } ∧
    ollama_generate retryConfig (fun s => s) true .ready "r8" (fun _ => .timeout) =
      { result := .error
          { kind := .timeout_error
            message := "Ollama request timed out after 3 attempts"
            provider := .ollama
            request_id := some "r8" }
        attempts := 3
        sleeps := [5, 5] } := by
  constructor
  · have h := (c8_retry_on_timeout retryConfig (fun s => s) "r8").1 onceTimeoutOracle 2
      "DAX" (some 2) (some 3) (by decide) (by decide)
      (by
        intro i hi
        have hi0 : i = 0 := by omega
        rw [hi0]
        rfl)
      rfl
    rw [h]
    decide
  · have h := (c8_retry_on_timeout retryConfig (fun s => s) "r8").2 (fun _ => .timeout)
      (fun _ => rfl)
    rw [h]
    decide

/-- Claim C9 amended: a connection-refused (`ConnectError`) outcome on the
first attempt makes `generate` raise `LLMConnectionError` immediately after
exactly one attempt with no sleeps and no retry, regardless of
`max_retries` — but the raised error carries `recoverable=True`, not the
non-recoverable flag the claim asserts. -/
theorem c9_connect_terminal (config : LLMConfig) (pt : String → String) (rid : String)
    (oracle : Nat → AttemptOutcome) (msg : String)
    (h0 : oracle 0 = .connect_error msg) (hmr : 1 ≤ config.max_retries) :
    ollama_generate config pt true .ready rid oracle =
      { result := .error
          { kind := .connection_error
            message := "Cannot connect to Ollama: " ++ msg
            provider := .ollama
            request_id := some rid
            recoverable := true }
        attempts := 1
        sleeps := [] } := by
  have hready : ¬ (¬ true = true ∨ (LLMStatus.ready ≠ LLMStatus.ready)) := by simp
  unfold ollama_generate
  rw [if_neg hready]
  obtain ⟨r, hr⟩ : ∃ r, config.max_retries = r + 1 :=
    ⟨config.max_retries - 1, by omega⟩
  rw [hr]
  simp only [genLoop, h0]

/-- An oracle whose every attempt is refused at the connection level. -/
def refusedOracle : Nat → AttemptOutcome :=
  fun _ => .connect_error "refused"

/-- Counterexample to C9 as stated: the connection error raised after the
single attempt carries `recoverable=True`, so it is not the
"non-recoverable" error the claim describes (though it is indeed raised
immediately, with no retry). -/
theorem c9_counterexample :
    (ollama_generate retryConfig (fun s => s) true .ready "r9" refusedOracle).attempts
      = 1 ∧
    (ollama_generate retryConfig (fun s => s) true .ready "r9" refusedOracle).result
      = .error
        { kind := .connection_error
          message := "Cannot connect to Ollama: refused"
          provider := .ollama
          request_id := some "r9"
          recoverable := true } ∧
    (ollama_generate retryConfig (fun s => s) true .ready "r9" refusedOracle).result
      ≠ .error
        { kind := .connection_error
          message := "Cannot connect to Ollama: refused"
          provider := .ollama
          request_id := some "r9"
          recoverable := false } := by
  decide

/-- Witness for C9 amended at the concrete refused oracle. -/
theorem c9_connect_terminal_witness :
    ollama_generate retryConfig (fun s => s) true .ready "r9w" refusedOracle =
      { result := .error
          { kind := .connection_error
            message := "Cannot connect to Ollama: refused"
            provider := .ollama
            request_id := some "r9w"
            recoverable := true }
        attempts := 1
        sleeps := [] } :=
  c9_connect_terminal retryConfig (fun s => s) "r9w" refusedOracle "refused" rfl
    (by decide)

/-! ## C7: sanitizer round-trip behavior -/

/-- The sanitized column produced by `_sanitize_table` for a column of the
table named `tname`. -/
def colfn (leak : String → Bool) (db : DataBoundary) (tname : String)
    (col : ColumnInfo) : ColumnInfo :=
  { name := sanitize_identifier col.name
    data_type := col.data_type
    table_name := tname
    description := (descField leak db col.description MAX_COLUMN_DESCRIPTION_LENGTH).1
    is_key := col.is_key
    is_nullable := col.is_nullable }

/-- The sanitized table produced by `_sanitize_table`. -/
def tblfn (leak : String → Bool) (db : DataBoundary) (t : TableInfo) : TableInfo :=
  { name := sanitize_identifier t.name
    columns := t.columns.map (colfn leak db t.name)
    description := (descField leak db t.description MAX_TABLE_DESCRIPTION_LENGTH).1
    is_hidden := t.is_hidden }

theorem sanitize_table_fst (leak : String → Bool) (db : DataBoundary) (t : TableInfo) :
    (sanitize_table leak db t).1 = tblfn leak db t := by
  simp only [sanitize_table, tblfn, List.map_map]
  rfl

/-- The sanitized measure produced by `_sanitize_measure` when it is not
dropped. -/
def msrfn (leak : String → Bool) (db : DataBoundary) (m : MeasureInfo) : MeasureInfo :=
  { name := sanitize_identifier m.name
    expression := truncateText m.expression MAX_MEASURE_EXPRESSION_LENGTH
    table_name := m.table_name
    description := (descField leak db m.description MAX_COLUMN_DESCRIPTION_LENGTH).1
    format_string := m.format_string }

theorem columnInfo_ext {a b : ColumnInfo} (h1 : a.name = b.name)
    (h2 : a.data_type = b.data_type) (h3 : a.table_name = b.table_name)
    (h4 : a.description = b.description) (h5 : a.is_key = b.is_key)
    (h6 : a.is_nullable = b.is_nullable) : a = b := by
  cases a
  cases b
  simp_all

theorem tableInfo_ext {a b : TableInfo} (h1 : a.name = b.name)
    (h2 : a.columns = b.columns) (h3 : a.description = b.description)
    (h4 : a.is_hidden = b.is_hidden) : a = b := by
  cases a
  cases b
  simp_all

theorem measureInfo_ext {a b : MeasureInfo} (h1 : a.name = b.name)
    (h2 : a.expression = b.expression) (h3 : a.table_name = b.table_name)
    (h4 : a.description = b.description) (h5 : a.format_string = b.format_string) :
    a = b := by
  cases a
  cases b
  simp_all

theorem sanitize_measure_ns (leak : String → Bool) (db : DataBoundary) (m : MeasureInfo)
    (hstrict : db.strict_mode = false) :
    (sanitize_measure leak db m).1 = some (msrfn leak db m) := by
  have hfold : (if strLen m.expression > MAX_MEASURE_EXPRESSION_LENGTH then
      strTake m.expression MAX_MEASURE_EXPRESSION_LENGTH ++ "..." else m.expression)
      = truncateText m.expression MAX_MEASURE_EXPRESSION_LENGTH := rfl
  simp only [sanitize_measure]
  rw [hfold]
  by_cases hl : leak (truncateText m.expression MAX_MEASURE_EXPRESSION_LENGTH) = true
  · rw [if_pos hl, hstrict]
    rfl
  · rw [if_neg hl]
    rfl

theorem sanitize_text_ns (leak : String → Bool) (t : String) (n : Nat) (hne : t ≠ "") :
    (sanitize_text leak false t n).1 = some (truncateText t n) := by
  by_cases hl : leak t = true <;> simp [sanitize_text, hne, hl]

theorem descField_fst_ns (leak : String → Bool) (db : DataBoundary) (t : String) (n : Nat)
    (hstrict : db.strict_mode = false) (hallow : db.allow_descriptions = true)
    (hne : t ≠ "") :
    (descField leak db (some t) n).1 = some (truncateText t n) := by
  show (if db.allow_descriptions = true ∧ t ≠ "" then sanitize_text leak db.strict_mode t n
        else (none, [])).1 = _
  rw [if_pos ⟨hallow, hne⟩, hstrict, sanitize_text_ns leak t n hne]

theorem descField_roundtrip (leak : String → Bool) (db : DataBoundary)
    (od : Option String) (n : Nat) (hstrict : db.strict_mode = false) :
    (descField leak db (descField leak db od n).1 n).1 = (descField leak db od n).1 := by
  cases od with
  | none => rfl
  | some t =>
      by_cases hallow : db.allow_descriptions = true
      · by_cases hne : t ≠ ""
        · rw [descField_fst_ns leak db t n hstrict hallow hne,
            descField_fst_ns leak db (truncateText t n) n hstrict hallow
              (truncateText_ne_empty t n hne),
            truncateText_idem]
        · have hd : descField leak db (some t) n = (none, []) := by
            show (if db.allow_descriptions = true ∧ t ≠ "" then
                sanitize_text leak db.strict_mode t n else (none, [])) = _
            rw [if_neg (fun hh => hne hh.2)]
          rw [hd]
          rfl
      · have hd : descField leak db (some t) n = (none, []) := by
          show (if db.allow_descriptions = true ∧ t ≠ "" then
              sanitize_text leak db.strict_mode t n else (none, [])) = _
          rw [if_neg (fun hh => hallow hh.1)]
        rw [hd]
        rfl

theorem colfn_roundtrip (leak : String → Bool) (db : DataBoundary) (tname : String)
    (col : ColumnInfo) (hstrict : db.strict_mode = false) :
    colfn leak db tname (colfn leak db tname col) = colfn leak db tname col := by
  refine columnInfo_ext ?_ rfl rfl ?_ rfl rfl
  · exact sanitize_identifier_idem col.name
  · exact descField_roundtrip leak db col.description MAX_COLUMN_DESCRIPTION_LENGTH hstrict

theorem tblfn_roundtrip (leak : String → Bool) (db : DataBoundary) (t : TableInfo)
    (hstrict : db.strict_mode = false) (hname : sanitize_identifier t.name = t.name) :
    tblfn leak db (tblfn leak db t) = tblfn leak db t := by
  refine tableInfo_ext ?_ ?_ ?_ rfl
  · exact sanitize_identifier_idem t.name
  · show ((t.columns.map (colfn leak db t.name)).map
        (colfn leak db (sanitize_identifier t.name))) = t.columns.map (colfn leak db t.name)
    rw [hname, List.map_map]
    exact List.map_congr_left
      (fun col _ => colfn_roundtrip leak db t.name col hstrict)
  · exact descField_roundtrip leak db t.description MAX_TABLE_DESCRIPTION_LENGTH hstrict

theorem msrfn_roundtrip (leak : String → Bool) (db : DataBoundary) (m : MeasureInfo)
    (hstrict : db.strict_mode = false) :
    msrfn leak db (msrfn leak db m) = msrfn leak db m := by
  refine measureInfo_ext ?_ ?_ rfl ?_ rfl
  · exact sanitize_identifier_idem m.name
  · exact truncateText_idem m.expression MAX_MEASURE_EXPRESSION_LENGTH
  · exact descField_roundtrip leak db m.description MAX_COLUMN_DESCRIPTION_LENGTH hstrict

theorem smd_fst_ns (leak : String → Bool) (db : DataBoundary) (t : String)
    (hstrict : db.strict_mode = false) (hne : t ≠ "") :
    (sanitize_model_desc leak db (some t)).1
      = some (truncateText t MAX_TABLE_DESCRIPTION_LENGTH) := by
  show (if t ≠ "" then sanitize_text leak db.strict_mode t MAX_TABLE_DESCRIPTION_LENGTH
        else (none, [])).1 = _
  rw [if_pos hne, hstrict, sanitize_text_ns leak t MAX_TABLE_DESCRIPTION_LENGTH hne]

theorem md_roundtrip (leak : String → Bool) (db : DataBoundary) (od : Option String)
    (hstrict : db.strict_mode = false) :
    (sanitize_model_desc leak db (sanitize_model_desc leak db od).1).1
      = (sanitize_model_desc leak db od).1 := by
  cases od with
  | none => rfl
  | some t =>
      by_cases hne : t ≠ ""
      · rw [smd_fst_ns leak db t hstrict hne,
          smd_fst_ns leak db (truncateText t MAX_TABLE_DESCRIPTION_LENGTH) hstrict
            (truncateText_ne_empty t MAX_TABLE_DESCRIPTION_LENGTH hne),
          truncateText_idem]
      · have hd : sanitize_model_desc leak db (some t) = (none, []) := by
          show (if t ≠ "" then
              sanitize_text leak db.strict_mode t MAX_TABLE_DESCRIPTION_LENGTH
            else (none, [])) = _
          rw [if_neg hne]
        rw [hd]
        rfl

theorem tables_map_eq (leak : String → Bool) (db : DataBoundary) (l : List TableInfo) :
    (l.map (sanitize_table leak db)).map Prod.fst = l.map (tblfn leak db) := by
  rw [List.map_map]
  exact List.map_congr_left (fun t _ => sanitize_table_fst leak db t)

theorem measures_filterMap_eq (leak : String → Bool) (db : DataBoundary)
    (l : List MeasureInfo) (hstrict : db.strict_mode = false) :
    (l.map (sanitize_measure leak db)).filterMap Prod.fst = l.map (msrfn leak db) := by
  induction l with
  | nil => rfl
  | cons m l ih =>
      rw [List.map_cons, List.filterMap_cons, sanitize_measure_ns leak db m hstrict,
        List.map_cons, ih]

theorem validate_schema_ns (leak : String → Bool) (db : DataBoundary) (s : SchemaInfo)
    (hstrict : db.strict_mode = false) :
    validate_schema leak db s = .ok (sanitized_of leak db s) := by
  have hc : ¬ ((validate_schema_pair leak db s).2 ≠ [] ∧ db.strict_mode = true) := by
    rintro ⟨-, hs⟩
    rw [hstrict] at hs
    cases hs
  unfold validate_schema
  rw [if_neg hc]
  rfl

theorem schemaInfo_ext {a b : SchemaInfo} (h1 : a.tables = b.tables)
    (h2 : a.measures = b.measures) (h3 : a.relationships = b.relationships)
    (h4 : a.model_name = b.model_name) (h5 : a.model_description = b.model_description) :
    a = b := by
  cases a
  cases b
  simp_all

theorem sanitized_tables_eq (leak : String → Bool) (db : DataBoundary) (s : SchemaInfo) :
    (sanitized_of leak db s).tables = s.tables.map (tblfn leak db) :=
  tables_map_eq leak db s.tables

theorem sanitized_measures_eq (leak : String → Bool) (db : DataBoundary) (s : SchemaInfo)
    (hstrict : db.strict_mode = false) :
    (sanitized_of leak db s).measures
      = if db.allow_measures then s.measures.map (msrfn leak db) else [] := by
  show (if db.allow_measures then
      (s.measures.map (sanitize_measure leak db)).filterMap Prod.fst else []) = _
  by_cases ha : db.allow_measures = true
  · rw [if_pos ha, if_pos ha, measures_filterMap_eq leak db _ hstrict]
  · rw [if_neg ha, if_neg ha]

theorem sanitized_of_roundtrip (leak : String → Bool) (db : DataBoundary)
    (schema : SchemaInfo) (hstrict : db.strict_mode = false)
    (hnames : ∀ tb ∈ schema.tables, sanitize_identifier tb.name = tb.name) :
    sanitized_of leak db (sanitized_of leak db schema) = sanitized_of leak db schema := by
  refine schemaInfo_ext ?_ ?_ ?_ rfl ?_
  · rw [sanitized_tables_eq leak db (sanitized_of leak db schema),
      sanitized_tables_eq leak db schema, List.map_map]
    refine List.map_congr_left ?_
    intro t ht
    show tblfn leak db (tblfn leak db t) = tblfn leak db t
    exact tblfn_roundtrip leak db t hstrict (hnames t ht)
  · rw [sanitized_measures_eq leak db (sanitized_of leak db schema) hstrict,
      sanitized_measures_eq leak db schema hstrict]
    by_cases ha : db.allow_measures = true
    · simp only [if_pos ha, List.map_map]
      refine List.map_congr_left ?_
      intro m _
      show msrfn leak db (msrfn leak db m) = msrfn leak db m
      exact msrfn_roundtrip leak db m hstrict
    · simp only [if_neg ha]
  · show (if db.allow_relationships then (sanitized_of leak db schema).relationships
        else []) = (sanitized_of leak db schema).relationships
    by_cases ha : db.allow_relationships = true
    · rw [if_pos ha]
    · rw [if_neg ha]
      show ([] : List RelationshipInfo)
        = (if db.allow_relationships then schema.relationships else [])
      rw [if_neg ha]
  · exact md_roundtrip leak db schema.model_description hstrict

/-- Claim C7 amended: with `strict_mode=false` and every table name already
free of stripped characters and surrounding whitespace, sanitization
succeeds and re-sanitizing its output under the same config yields the
identical schema.  (In general a second pass rewrites each sanitized
column's `table_name` from the raw table name to the sanitized one — the
counterexample — and strict mode can newly fail when truncation creates a
fresh pattern match.) -/
theorem c7_idempotence (leak : String → Bool) (db : DataBoundary) (schema : SchemaInfo)
    (hstrict : db.strict_mode = false)
    (hnames : ∀ tb ∈ schema.tables, sanitize_identifier tb.name = tb.name) :
    validate_schema leak db schema = .ok (sanitized_of leak db schema) ∧
    validate_schema leak db (sanitized_of leak db schema)
      = .ok (sanitized_of leak db schema) := by
  refine ⟨validate_schema_ns leak db schema hstrict, ?_⟩
  rw [validate_schema_ns leak db _ hstrict,
    sanitized_of_roundtrip leak db schema hstrict hnames]

/-- A schema whose table name contains a stripped character. -/
def angleSchema : SchemaInfo :=
  { tables := [{ name := "T<1>",
                 columns := [{ name := "c", data_type := "Int", table_name := "T<1>" }] }] }

/-- Counterexample to C7 as stated: sanitizing `angleSchema` succeeds (in
strict mode, with no violations), and sanitizing the result again also
succeeds — but yields a different schema: the second pass rewrites the
column's `table_name` from the raw `"T<1>"` to the sanitized `"T1"`. -/
theorem c7_counterexample :
    validate_schema leakNone { } angleSchema = .ok (sanitized_of leakNone { } angleSchema) ∧
    validate_schema leakNone { } (sanitized_of leakNone { } angleSchema)
      = .ok (sanitized_of leakNone { } (sanitized_of leakNone { } angleSchema)) ∧
    sanitized_of leakNone { } (sanitized_of leakNone { } angleSchema)
      ≠ sanitized_of leakNone { } angleSchema := by
  decide

/-- The single table of the C7 witness schema. -/
def salesTable : TableInfo :=
  { name := "Sales"
    columns := [{ name := "Amount", data_type := "Decimal", table_name := "Sales" }] }

/-- A schema with a clean table name, a measure and a relationship, for the
C7 witness. -/
def cleanNameSchema : SchemaInfo :=
  { tables := [salesTable]
    measures := [{ name := "Total", expression := "SUM(Sales[Amount])",
                   table_name := "Sales" }]
    relationships := [{ from_table := "Sales", from_column := "CustomerID",
                        to_table := "Customer", to_column := "CustomerID" }] }

/-- Witness for C7 amended at a concrete clean-named schema in non-strict
mode. -/
theorem c7_idempotence_witness :
    validate_schema leakNone nsBoundary cleanNameSchema
      = .ok (sanitized_of leakNone nsBoundary cleanNameSchema) ∧
    validate_schema leakNone nsBoundary (sanitized_of leakNone nsBoundary cleanNameSchema)
      = .ok (sanitized_of leakNone nsBoundary cleanNameSchema) :=
  c7_idempotence leakNone nsBoundary cleanNameSchema rfl
    (by
      intro tb htb
      have h1 : tb = salesTable := List.mem_singleton.mp htb
      rw [h1]
      decide)

/-! ## C2: audit chain verification -/

theorem stampEvent_prev (mac : String → String → String) (key : String) (sign : Bool)
    (prev : String) (e : EventInput) :
    (stampEvent mac key sign prev e).previous_hash = prev := by
  by_cases hs : sign = true <;> simp [stampEvent, hs]

theorem stampEvent_canonical (mac : String → String → String) (key : String) (sign : Bool)
    (prev : String) (e : EventInput) :
    canonicalOf (stampEvent mac key sign prev e)
      = canonicalOf ({ toEventInput := e, previous_hash := prev } : AuditEventRec) := by
  by_cases hs : sign = true <;> simp [stampEvent, hs, canonicalOf]

theorem stampEvent_sig_true (mac : String → String → String) (key : String)
    (prev : String) (e : EventInput) :
    (stampEvent mac key true prev e).signature
      = some (mac key (canonicalOf (stampEvent mac key true prev e))) := by
  rw [stampEvent_canonical]
  simp [stampEvent]

theorem stampEvent_sig_false (mac : String → String → String) (key : String)
    (prev : String) (e : EventInput) :
    (stampEvent mac key false prev e).signature = none := by
  simp [stampEvent]

theorem tamper_prev (e : AuditEventRec) (m' : String) :
    ({ e with message := m' } : AuditEventRec).previous_hash = e.previous_hash := rfl

theorem tamper_sig (e : AuditEventRec) (m' : String) :
    ({ e with message := m' } : AuditEventRec).signature = e.signature := rfl

theorem chainCheck_stamp (mac : String → String → String) (key : String) (sign : Bool)
    (p : String) (idx : Nat) (e : EventInput) :
    chainCheck p idx (stampEvent mac key sign p e) = [] := by
  unfold chainCheck
  rw [if_neg (fun hc => hc (stampEvent_prev mac key sign p e))]

theorem chainCheck_stamp_wrong (mac : String → String → String) (key : String)
    (sign : Bool) (p q : String) (idx : Nat) (e : EventInput) (hne : q ≠ p) :
    chainCheck q idx (stampEvent mac key sign p e) = [idx] := by
  unfold chainCheck
  rw [if_pos (by rw [stampEvent_prev]; exact fun hl => hne hl.symm)]

theorem chainCheck_tampered (mac : String → String → String) (key : String) (sign : Bool)
    (p : String) (idx : Nat) (e : EventInput) (m' : String) :
    chainCheck p idx { stampEvent mac key sign p e with message := m' } = [] := by
  unfold chainCheck
  rw [if_neg (fun hc => hc ((tamper_prev _ _).trans (stampEvent_prev mac key sign p e)))]

theorem sigCheck_stamp (mac : String → String → String) (key : String) (sign : Bool)
    (p : String) (idx : Nat) (e : EventInput) :
    sigCheck mac key sign idx (stampEvent mac key sign p e) = [] := by
  cases sign with
  | false => rfl
  | true =>
      unfold sigCheck
      rw [if_pos rfl, stampEvent_sig_true]
      show (if (mac key (canonicalOf (stampEvent mac key true p e))
            ≠ mac key (canonicalOf (stampEvent mac key true p e))) then [idx] else []) = []
      rw [if_neg (fun hc => hc rfl)]

theorem sigCheck_tampered (mac : String → String → String) (key : String) (sign : Bool)
    (p : String) (idx : Nat) (e : EventInput) (m' : String)
    (hmac : mac key (canonicalOf { stampEvent mac key sign p e with message := m' })
      ≠ mac key (canonicalOf (stampEvent mac key sign p e))) :
    sigCheck mac key sign idx { stampEvent mac key sign p e with message := m' }
      = if sign then [idx] else [] := by
  cases sign with
  | false => rfl
  | true =>
      unfold sigCheck
      rw [if_pos rfl, if_pos rfl, tamper_sig, stampEvent_sig_true]
      show (if (mac key (canonicalOf (stampEvent mac key true p e))
            ≠ mac key (canonicalOf
                ({ stampEvent mac key true p e with message := m' } : AuditEventRec)))
          then [idx] else []) = [idx]
      rw [if_pos (Ne.symm hmac)]

/-- The per-line checks of `verify_integrity` accept every untampered line:
stored `previous_hash` values match the recomputed chain and stored
signatures match the recomputed HMAC. -/
theorem verifyFrom_build (H : String → String) (mac : String → String → String)
    (key : String) (sign : Bool) :
    ∀ (evs : List EventInput) (p : String) (idx : Nat),
    verifyFrom H mac key sign p idx (buildLog H mac key sign p evs) = ([], []) := by
  intro evs
  induction evs with
  | nil => intro p idx; rfl
  | cons e rest ih =>
      intro p idx
      show verifyFrom H mac key sign p idx
        (stampEvent mac key sign p e
          :: buildLog H mac key sign (H (eventToJson (stampEvent mac key sign p e))) rest)
        = ([], [])
      simp only [verifyFrom]
      rw [ih (H (eventToJson (stampEvent mac key sign p e))) (idx + 1),
        chainCheck_stamp, sigCheck_stamp]
      rfl

/-- Starting verification with a wrong expected hash flags exactly the
first line as a chain failure; the chain then re-synchronizes because the
verifier recomputes each following expectation from the actual file
content. -/
theorem verifyFrom_build_wrong (H : String → String) (mac : String → String → String)
    (key : String) (sign : Bool) (e : EventInput) (rest : List EventInput)
    (p q : String) (idx : Nat) (hne : q ≠ p) :
    verifyFrom H mac key sign q idx (buildLog H mac key sign p (e :: rest))
      = ([idx], []) := by
  show verifyFrom H mac key sign q idx
    (stampEvent mac key sign p e
      :: buildLog H mac key sign (H (eventToJson (stampEvent mac key sign p e))) rest)
    = ([idx], [])
  simp only [verifyFrom]
  rw [verifyFrom_build H mac key sign rest (H (eventToJson (stampEvent mac key sign p e)))
    (idx + 1), chainCheck_stamp_wrong mac key sign p q idx e hne, sigCheck_stamp]
  rfl

/-- Changing the message of the built event at index `i` (leaving its
stored `previous_hash` and `signature` bytes alone) makes verification
report a signature failure at that line exactly when signing is enabled,
and a chain failure at the immediately following line exactly when one
exists — and no other failures. -/
theorem verifyFrom_tampered (H : String → String) (mac : String → String → String)
    (key : String) (sign : Bool) :
    ∀ (evs : List EventInput) (p : String) (idx i : Nat) (e : AuditEventRec) (m' : String),
    builtAt H mac key sign p evs i = some e →
    mac key (canonicalOf { e with message := m' }) ≠ mac key (canonicalOf e) →
    H (eventToJson { e with message := m' }) ≠ H (eventToJson e) →
    verifyFrom H mac key sign p idx (tamperMessage (buildLog H mac key sign p evs) i m')
      = ((if i + 1 < evs.length then [idx + i + 1] else []),
         (if sign then [idx + i] else [])) := by
  intro evs
  induction evs with
  | nil => intro p idx i e m' hat; cases hat
  | cons e0 rest ih =>
      intro p idx i e m' hat hmac hhash
      cases i with
      | zero =>
          have he : stampEvent mac key sign p e0 = e := Option.some.inj hat
          subst he
          show verifyFrom H mac key sign p idx
            ({ stampEvent mac key sign p e0 with message := m' }
              :: buildLog H mac key sign
                  (H (eventToJson (stampEvent mac key sign p e0))) rest)
            = _
          simp only [verifyFrom]
          rw [chainCheck_tampered, sigCheck_tampered mac key sign p idx e0 m' hmac]
          cases rest with
          | nil =>
              show (([] : List Nat) ++ ([], ([] : List Nat)).1,
                    (if sign then [idx] else []) ++ ([], ([] : List Nat)).2)
                = _
              have hlen : ¬ (0 + 1 < (List.length [e0])) := by simp
              rw [if_neg hlen]
              simp
          | cons r rs =>
              rw [verifyFrom_build_wrong H mac key sign r rs
                (H (eventToJson (stampEvent mac key sign p e0)))
                (H (eventToJson { stampEvent mac key sign p e0 with message := m' }))
                (idx + 1) hhash]
              have hlen : 0 + 1 < (e0 :: r :: rs).length := by simp
              rw [if_pos hlen]
              simp
      | succ i =>
          have hat' : builtAt H mac key sign
              (H (eventToJson (stampEvent mac key sign p e0))) rest i = some e := hat
          show verifyFrom H mac key sign p idx
            (stampEvent mac key sign p e0
              :: tamperMessage
                  (buildLog H mac key sign
                    (H (eventToJson (stampEvent mac key sign p e0))) rest) i m')
            = _
          simp only [verifyFrom]
          rw [chainCheck_stamp, sigCheck_stamp,
            ih (H (eventToJson (stampEvent mac key sign p e0))) (idx + 1) i e m'
              hat' hmac hhash]
          have h1 : idx + 1 + i + 1 = idx + (i + 1) + 1 := by omega
          have h2 : idx + 1 + i = idx + (i + 1) := by omega
          rw [h1, h2]
          have h3 : (i + 1 < rest.length) ↔ (i + 1 + 1 < (e0 :: rest).length) := by
            simp
          refine Prod.ext ?_ ?_
          · show ([] : List Nat) ++ (if i + 1 < rest.length then [idx + (i + 1) + 1] else [])
              = (if i + 1 + 1 < (e0 :: rest).length then [idx + (i + 1) + 1] else [])
            rw [List.nil_append, if_congr h3 rfl rfl]
          · show ([] : List Nat) ++ (if sign then [idx + (i + 1)] else [])
              = (if sign then [idx + (i + 1)] else [])
            rw [List.nil_append]

/-- Claim C2 amended: for any sequence of events appended to one segment,
verifying the untampered file reports no chain failures and no signature
failures; changing the message field of the event at index `i` (file line
`i+1`) makes re-verification report that line in `signature_failures`
exactly when signing is enabled, and the immediately following line (`i+2`)
— and only that line — in `chain_failures` when a following line exists:
lines beyond the next are not flagged, because the verifier recomputes each
expected hash from the file's actual bytes.  Hash and HMAC distinctness at
the tampered line are hypotheses (collision-freeness of SHA-256/HMAC at the
concrete strings). -/
theorem c2_chain_verification (H : String → String) (mac : String → String → String)
    (key : String) (sign : Bool) (createdAt : String) (events : List EventInput) :
    verify_integrity H mac key sign (headerLine createdAt sign)
        (logSegment H mac key sign createdAt events) = ([], []) ∧
    (∀ (i : Nat) (e : AuditEventRec) (m' : String),
      builtAt H mac key sign (H (headerLine createdAt sign)) events i = some e →
      mac key (canonicalOf { e with message := m' }) ≠ mac key (canonicalOf e) →
      H (eventToJson { e with message := m' }) ≠ H (eventToJson e) →
      verify_integrity H mac key sign (headerLine createdAt sign)
          (tamperMessage (logSegment H mac key sign createdAt events) i m') =
        ((if i + 1 < events.length then [i + 2] else []),
         (if sign then [i + 1] else []))) := by
  constructor
  · exact verifyFrom_build H mac key sign events (H (headerLine createdAt sign)) 1
  · intro i e m' hat hmac hhash
    have h := verifyFrom_tampered H mac key sign events (H (headerLine createdAt sign))
      1 i e m' hat hmac hhash
    rw [show (1 : Nat) + i + 1 = i + 2 by omega, show (1 : Nat) + i = i + 1 by omega] at h
    exact h

/-- A concrete stand-in for SHA-256 used by witnesses: the decimal rendering
of the sum of the code points (collision-free on the strings involved,
checked by evaluation). -/
def sumHash (s : String) : String :=
  toString (s.data.foldl (fun a c => a + c.toNat) 0)

/-- A concrete stand-in for keyed HMAC-SHA256: key and text joined by a
separator (collision-free on the strings involved, checked by
evaluation). -/
def tagMac (key s : String) : String :=
  key ++ "|" ++ s

/-- Three concrete audit events for the C2 witness and counterexample. -/
def c2e1 : EventInput :=
  { event_id := "e1", event_type := "llm_request", severity := "info",
    message := "alpha", timestamp := "t1" }

/-- Second concrete audit event. -/
def c2e2 : EventInput :=
  { event_id := "e2", event_type := "llm_response", severity := "info",
    message := "beta", timestamp := "t2" }

/-- Third concrete audit event. -/
def c2e3 : EventInput :=
  { event_id := "e3", event_type := "query_executed", severity := "info",
    message := "gamma", timestamp := "t3" }

/-- The three-event sequence. -/
def c2events : List EventInput := [c2e1, c2e2, c2e3]

/-- The first written event record of the signed witness segment. -/
def c2firstRec : AuditEventRec :=
  stampEvent tagMac "k" true (sumHash (headerLine "t0" true)) c2e1

set_option maxRecDepth 8192 in
/-- Witness for C2 amended: the untampered signed segment verifies clean,
and tampering the first event's message yields exactly a signature failure
at line 1 and a chain failure at line 2. -/
theorem c2_chain_verification_witness :
    verify_integrity sumHash tagMac "k" true (headerLine "t0" true)
        (logSegment sumHash tagMac "k" true "t0" c2events) = ([], []) ∧
    verify_integrity sumHash tagMac "k" true (headerLine "t0" true)
        (tamperMessage (logSegment sumHash tagMac "k" true "t0" c2events) 0 "ALPHA")
      = ([2], [1]) := by
  constructor
  · exact (c2_chain_verification sumHash tagMac "k" true "t0" c2events).1
  · have h := (c2_chain_verification sumHash tagMac "k" true "t0" c2events).2 0
      c2firstRec "ALPHA" rfl (by decide) (by decide)
    rw [h]
    decide

set_option maxRecDepth 8192 in
/-- Counterexample to C2 as stated: with signing disabled, tampering the
first of three events yields `chain_failures = [2]` only — line 3 is *not*
flagged, contradicting "chain_failures for all subsequent lines" (and with
signing disabled there is no signature failure to fall back on). -/
theorem c2_counterexample :
    verify_integrity sumHash tagMac "k" false (headerLine "t0" false)
        (tamperMessage (logSegment sumHash tagMac "k" false "t0" c2events) 0 "ALPHA")
      = ([2], []) ∧
    ¬ (3 ∈ (verify_integrity sumHash tagMac "k" false (headerLine "t0" false)
        (tamperMessage (logSegment sumHash tagMac "k" false "t0" c2events) 0 "ALPHA")).1) := by
  decide

end PowerBI
